import Mathlib

/-!
Verification of the MTL web-scraper repository (src/main.py, src/KBank.py,
src/Kbank/KBank.py) against its natural-language specification.

The Python code is shallowly embedded: pure string manipulation is translated
to executable Lean functions over `String` / `List Char`; the effectful parts
(HTTP fetches, Selenium queries, random jitter, the system clock, image
downloads) are passed in as explicit function parameters, so every embedded
function is total and executable.  A Python exception that the source code
catches is modelled with `Option`/`Except` (`none` / `.error` = an exception
was raised at that point).

Modelling conventions, noted once here:
* Python `str.split()` splits on runs of whitespace; we use `Char.isWhitespace`
  (space, tab, CR, LF), which agrees with Python on the ASCII whitespace that
  occurs in the scraped strings.
* Python's regex class `\d` and `int()` also accept non-ASCII decimal digits;
  the embedding uses ASCII digits (`Char.isDigit`), which agrees with Python on
  every string considered in the theorems below.
* Python dicts iterate in insertion order; dict literals are embedded as
  association lists in the source order.
-/

namespace MTL

/-! ### Small Python-string primitives -/

/-- Boolean test: `pat` is a prefix of `l` (Python `str.startswith`). -/
def pfxB : List Char → List Char → Bool
  | [], _ => true
  | _ :: _, [] => false
  | a :: as, b :: bs => if a = b then pfxB as bs else false

/-- Boolean test: `pat` occurs as a contiguous substring of `hay`
(Python `pat in hay`). -/
def strIn (pat : List Char) : List Char → Bool
  | [] => pfxB pat []
  | c :: cs => if pfxB pat (c :: cs) then true else strIn pat cs

/-- Python `str.split()`: accumulate the current word while walking the list. -/
def tokensAux : List Char → List Char → List String
  | [], cur => if cur = [] then [] else [String.mk cur]
  | c :: cs, cur =>
    if c.isWhitespace then
      if cur = [] then tokensAux cs [] else String.mk cur :: tokensAux cs []
    else tokensAux cs (cur ++ [c])

/-- Python `str.split()` (no separator argument). -/
def pySplitWs (s : String) : List String := tokensAux s.data []

/-- Python `str.zfill(2)`: left-pad with `'0'` to width 2, keeping a sign. -/
def zfill2 (s : String) : String :=
  match s.data with
  | [] => "00"
  | [c] => if c = '+' ∨ c = '-' then String.mk [c, '0'] else String.mk ['0', c]
  | _ => s

/-- Numeric value of an ASCII digit character. -/
def digitVal (c : Char) : Nat := c.toNat - '0'.toNat

/-- Value of a list of ASCII digit characters, most significant first. -/
def digitsVal (l : List Char) : Nat := l.foldl (fun a c => 10 * a + digitVal c) 0

/-- Model of Python `int(s)` on the token strings that reach it: an optional
sign followed by ASCII digits; `none` models `int` raising `ValueError`. -/
def pyInt? (s : String) : Option Int :=
  match s.data with
  | [] => none
  | c :: ds =>
    if c = '+' then
      (if ds ≠ [] ∧ ds.all Char.isDigit then some ((digitsVal ds : Nat) : Int) else none)
    else if c = '-' then
      (if ds ≠ [] ∧ ds.all Char.isDigit then some (-((digitsVal ds : Nat) : Int)) else none)
    else if (c :: ds).all Char.isDigit then some ((digitsVal (c :: ds) : Nat) : Int)
    else none

/-! ### `extract_date` (KasikornSeleniumScraper, both variants)

`src/KBank.py` lines 137-196 and `src/Kbank/KBank.py` lines 155-213 share all
of their logic except the output field order (`dd-mm-yyyy` vs `yyyy-mm-dd`) and
the fallback value (`""` vs the original text); the shared part is embedded
once, parameterised by the formatter and the no-match fallback. -/

/-- The twelve-month Thai lexicon `th_months`, in dict insertion order. -/
def thMonths : List (String × String) :=
  [("มกราคม", "01"), ("กุมภาพันธ์", "02"), ("มีนาคม", "03"),
   ("เมษายน", "04"), ("พฤษภาคม", "05"), ("มิถุนายน", "06"),
   ("กรกฎาคม", "07"), ("สิงหาคม", "08"), ("กันยายน", "09"),
   ("ตุลาคม", "10"), ("พฤศจิกายน", "11"), ("ธันวาคม", "12")]

/-- Buddhist-era conversion for the Thai branch:
`if len(year) == 4 and int(year) > 2500: year = str(int(year) - 543)`.
`none` models `int(year)` raising. -/
def beAdjust (year : String) : Option String :=
  if year.length = 4 then
    match pyInt? year with
    | some y => some (if 2500 < y then toString (y - 543) else year)
    | none => none
  else some year

/-- Buddhist-era conversion for the two numeric branches:
`if int(year) > 2500: year = str(int(year) - 543)` (the year group is four
`\d` characters, so `int` cannot raise; `none` is kept for faithfulness). -/
def beNum (year : String) : Option String :=
  match pyInt? year with
  | some y => some (if 2500 < y then toString (y - 543) else year)
  | none => none

/-- The inner loop `for i, part in enumerate(parts)` restricted to the indices
the guard `i > 0 and i < len(parts) - 1` allows: walk the token list keeping
the previous token, and require a following token.  Returns
`(parts[i-1].zfill(2), parts[i+1])` for the first `i` with `parts[i]` equal to
the month name. -/
def thaiScanWin (mname : String) (prev : String) : List String → Option (String × String)
  | cur :: nxt :: rest =>
    if cur = mname then some (zfill2 prev, nxt) else thaiScanWin mname cur (nxt :: rest)
  | _ => none

/-- `parts[0]` can never match (the guard needs `i > 0`), so scanning starts at
index 1. -/
def thaiScan (mname : String) : List String → Option (String × String)
  | p :: rest => thaiScanWin mname p rest
  | [] => none

/-- The outer loop `for month_name, month_num in th_months.items()`: the month
must occur in the text; a month whose token scan finds no valid index falls
through to the next month. -/
def thaiGo (fmt : String → String → String → String) (text : String) :
    List (String × String) → Option (Except Unit String)
  | [] => none
  | (mn, mv) :: rest =>
    if strIn mn.data text.data then
      match thaiScan mn (pySplitWs text) with
      | some (day, yearTok) =>
        some (match beAdjust yearTok with
              | some y2 => .ok (fmt day mv y2)
              | none => .error ())
      | none => thaiGo fmt text rest
    else thaiGo fmt text rest

/-- Take exactly `n` ASCII digit characters. -/
def grabDigits : Nat → List Char → Option (List Char × List Char)
  | 0, l => some ([], l)
  | _ + 1, [] => none
  | n + 1, c :: cs =>
    if c.isDigit then (grabDigits n cs).map (fun p => (c :: p.1, p.2)) else none

/-- One anchored attempt of `(\d{1,2})/(\d{1,2})/(\d{4})` with `n1`/`n2` digits
for the first two groups. -/
def dmyAttempt (n1 n2 : Nat) (l : List Char) : Option (String × String × String) :=
  match grabDigits n1 l with
  | none => none
  | some (d1, r1) =>
    match r1 with
    | [] => none
    | c1 :: r2 =>
      if c1 = '/' then
        match grabDigits n2 r2 with
        | none => none
        | some (d2, r3) =>
          match r3 with
          | [] => none
          | c2 :: r4 =>
            if c2 = '/' then
              match grabDigits 4 r4 with
              | none => none
              | some (y, _) => some (String.mk d1, String.mk d2, String.mk y)
            else none
      else none

/-- Anchored match of `(\d{1,2})/(\d{1,2})/(\d{4})`: greedy `\d{1,2}` tries two
digits before one, backtracking in regex order (2,2), (2,1), (1,2), (1,1). -/
def dmyAt (l : List Char) : Option (String × String × String) :=
  (((dmyAttempt 2 2 l).orElse fun _ => dmyAttempt 2 1 l).orElse
    fun _ => dmyAttempt 1 2 l).orElse fun _ => dmyAttempt 1 1 l

/-- `re.search(r'(\d{1,2})/(\d{1,2})/(\d{4})', text)`: leftmost match wins. -/
def dmySearch : List Char → Option (String × String × String)
  | [] => none
  | c :: cs => match dmyAt (c :: cs) with
    | some r => some r
    | none => dmySearch cs

/-- One anchored attempt of `(\d{4})-(\d{1,2})-(\d{1,2})` with `n1`/`n2` digits
for the month and day groups. -/
def ymdAttempt (n1 n2 : Nat) (l : List Char) : Option (String × String × String) :=
  match grabDigits 4 l with
  | none => none
  | some (y, r1) =>
    match r1 with
    | [] => none
    | c1 :: r2 =>
      if c1 = '-' then
        match grabDigits n1 r2 with
        | none => none
        | some (m, r3) =>
          match r3 with
          | [] => none
          | c2 :: r4 =>
            if c2 = '-' then
              match grabDigits n2 r4 with
              | none => none
              | some (d, _) => some (String.mk y, String.mk m, String.mk d)
            else none
      else none

/-- Anchored match of `(\d{4})-(\d{1,2})-(\d{1,2})` in regex backtracking
order. -/
def ymdAt (l : List Char) : Option (String × String × String) :=
  (((ymdAttempt 2 2 l).orElse fun _ => ymdAttempt 2 1 l).orElse
    fun _ => ymdAttempt 1 2 l).orElse fun _ => ymdAttempt 1 1 l

/-- `re.search(r'(\d{4})-(\d{1,2})-(\d{1,2})', text)`: leftmost match wins. -/
def ymdSearch : List Char → Option (String × String × String)
  | [] => none
  | c :: cs => match ymdAt (c :: cs) with
    | some r => some r
    | none => ymdSearch cs

/-- Body of the `try:` block shared by both `extract_date` variants.
`fmt` assembles the output from (day, month, year); `dflt` is the value of the
final `return` when no pattern matches. -/
def dateBody (fmt : String → String → String → String) (dflt : String)
    (text : String) : Except Unit String :=
  match thaiGo fmt text thMonths with
  | some r => r
  | none =>
    match dmySearch text.data with
    | some (d, m, y) =>
      (match beNum y with
       | some y2 => .ok (fmt (zfill2 d) (zfill2 m) y2)
       | none => .error ())
    | none =>
      match ymdSearch text.data with
      | some (y, m, d) =>
        (match beNum y with
         | some y2 => .ok (fmt (zfill2 d) (zfill2 m) y2)
         | none => .error ())
      | none => .ok dflt

/-- Field order of `src/KBank.py`: `f"{day}-{month}-{year}"`. -/
def fmtDMY (d mv y : String) : String := d ++ "-" ++ mv ++ "-" ++ y

/-- Field order of `src/Kbank/KBank.py`: `f"{year}-{month}-{day}"`. -/
def fmtYMD (d mv y : String) : String := y ++ "-" ++ mv ++ "-" ++ d

/-- `KasikornSeleniumScraper.extract_date` of `src/KBank.py` (lines 137-196):
`dd-mm-yyyy` output, `""` on no match and on a caught exception. -/
def extract_date1 (text : String) : String :=
  if text = "" ∨ text = "-" then ""
  else
    match dateBody fmtDMY "" text with
    | .ok r => r
    | .error _ => ""

/-- `KasikornSeleniumScraper.extract_date` of `src/Kbank/KBank.py`
(lines 155-213): `yyyy-mm-dd` output, the original text on no match and on a
caught exception. -/
def extract_date2 (text : String) : String :=
  if text = "" ∨ text = "-" then ""
  else
    match dateBody fmtYMD text text with
    | .ok r => r
    | .error _ => text

example : extract_date1 "1 เมษายน 2564" = "01-04-2021" := by decide
example : extract_date2 "1 เมษายน 2564" = "2021-04-01" := by decide
example : extract_date1 "31/12/2565" = "31-12-2022" := by decide
example : extract_date2 "31/12/2565" = "2022-12-31" := by decide
example : extract_date1 "2021-04-01" = "01-04-2021" := by decide
example : extract_date2 "2023-7-9" = "2023-07-09" := by decide
example : extract_date1 "no date here" = "" := by decide
example : extract_date2 "no date here" = "no date here" := by decide
example : extract_date1 "-" = "" := by decide
example : extract_date1 "1 เมษายน 2500" = "01-04-2500" := by decide

/-! ### Lemmas about the tokenizer (`str.split()`) -/

lemma tokensAux_word (w : List Char) (hw : ∀ c ∈ w, c.isWhitespace = false) :
    ∀ cs cur, tokensAux (w ++ cs) cur = tokensAux cs (cur ++ w) := by
  induction w with
  | nil => intro cs cur; simp
  | cons c w ih =>
    intro cs cur
    have hc : c.isWhitespace = false := hw c (by simp)
    have hw2 : ∀ d ∈ w, d.isWhitespace = false := fun d hd => hw d (by simp [hd])
    simp only [List.cons_append, tokensAux, hc, Bool.false_eq_true, if_false]
    show tokensAux (w ++ cs) (cur ++ [c]) = tokensAux cs (cur ++ c :: w)
    rw [ih hw2 cs (cur ++ [c])]
    simp

lemma tokensAux_space (cs cur : List Char) (h : cur ≠ []) :
    tokensAux (' ' :: cs) cur = String.mk cur :: tokensAux cs [] := by
  have hs : (' ').isWhitespace = true := by decide
  simp [tokensAux, hs, h]

lemma tokensAux_final (cur : List Char) (h : cur ≠ []) :
    tokensAux [] cur = [String.mk cur] := by
  simp [tokensAux, h]

lemma pySplitWs_three (a b c : String)
    (ha : a.data ≠ []) (ha2 : ∀ ch ∈ a.data, ch.isWhitespace = false)
    (hb : b.data ≠ []) (hb2 : ∀ ch ∈ b.data, ch.isWhitespace = false)
    (hc : c.data ≠ []) (hc2 : ∀ ch ∈ c.data, ch.isWhitespace = false) :
    pySplitWs (a ++ " " ++ b ++ " " ++ c) = [a, b, c] := by
  obtain ⟨la⟩ := a; obtain ⟨lb⟩ := b; obtain ⟨lc⟩ := c
  show tokensAux (String.mk la ++ " " ++ String.mk lb ++ " " ++ String.mk lc).data [] = _
  have hdata : (String.mk la ++ " " ++ String.mk lb ++ " " ++ String.mk lc).data =
      la ++ (' ' :: (lb ++ (' ' :: lc))) := by
    simp [String.data_append]
  rw [hdata, tokensAux_word la ha2, List.nil_append,
    tokensAux_space _ la ha, tokensAux_word lb hb2, List.nil_append,
    tokensAux_space _ lb hb]
  have := tokensAux_word lc hc2 [] []
  rw [List.append_nil] at this
  rw [this, List.nil_append, tokensAux_final lc hc]

/-! ### Lemmas about the substring test (`in`) -/

lemma pfxB_append (p t : List Char) : pfxB p (p ++ t) = true := by
  induction p with
  | nil => rfl
  | cons c p ih => simp [pfxB, ih]

lemma strIn_cons (p cs : List Char) (c : Char) (h : strIn p cs = true) :
    strIn p (c :: cs) = true := by
  rw [strIn]
  split <;> simp [h]

lemma strIn_of_append (a p b : List Char) : strIn p (a ++ (p ++ b)) = true := by
  induction a with
  | nil =>
    rw [List.nil_append]
    cases hpb : p ++ b with
    | nil =>
      have hp : p = [] := by
        rcases List.append_eq_nil.mp hpb with ⟨h1, _⟩; exact h1
      subst hp; rfl
    | cons x xs =>
      rw [strIn, ← hpb, pfxB_append]
      simp
  | cons d a ih => exact strIn_cons _ _ _ ih

lemma strIn_head_mem (c : Char) (p hay : List Char) (h : strIn (c :: p) hay = true) :
    c ∈ hay := by
  induction hay with
  | nil => simp [strIn, pfxB] at h
  | cons d hs ih =>
    rw [strIn] at h
    by_cases hp : pfxB (c :: p) (d :: hs) = true
    · rw [pfxB] at hp
      by_cases hcd : c = d
      · exact hcd ▸ List.mem_cons_self _ _
      · simp [hcd] at hp
    · simp only [hp, Bool.false_eq_true, if_false] at h
      exact List.mem_cons_of_mem _ (ih h)

/-! ### Lemmas about the Thai month scan -/

lemma thaiScan_triple (mn a b c : String) :
    thaiScan mn [a, b, c] = if b = mn then some (zfill2 a, c) else none := by
  simp [thaiScan, thaiScanWin]

lemma thaiGo_skip (fmt : String → String → String → String) (text mn : String)
    (mv : String) (rest : List (String × String))
    (h : thaiScan mn (pySplitWs text) = none) :
    thaiGo fmt text ((mn, mv) :: rest) = thaiGo fmt text rest := by
  rw [thaiGo]
  by_cases hin : strIn mn.data text.data = true
  · simp [hin, h]
  · simp [hin]

lemma thaiGo_hit (fmt : String → String → String → String) (text mn mv day yr : String)
    (rest : List (String × String))
    (hin : strIn mn.data text.data = true)
    (hscan : thaiScan mn (pySplitWs text) = some (day, yr)) :
    thaiGo fmt text ((mn, mv) :: rest) =
      some (match beAdjust yr with
            | some y2 => .ok (fmt day mv y2)
            | none => .error ()) := by
  rw [thaiGo]
  simp [hin, hscan]

lemma thaiGo_eq_of_mem (fmt : String → String → String → String)
    (text m mm day yr : String) (L : List (String × String))
    (hmem : (m, mm) ∈ L) (hnd : (L.map Prod.fst).Nodup)
    (hin : strIn m.data text.data = true)
    (hscan : thaiScan m (pySplitWs text) = some (day, yr))
    (hne : ∀ mn, mn ≠ m → thaiScan mn (pySplitWs text) = none) :
    thaiGo fmt text L =
      some (match beAdjust yr with
            | some y2 => .ok (fmt day mm y2)
            | none => .error ()) := by
  induction L with
  | nil => simp at hmem
  | cons hd tl ih =>
    obtain ⟨mn, mv⟩ := hd
    by_cases hmn : mn = m
    · subst hmn
      have hnd2 : (mn :: tl.map Prod.fst).Nodup := by simpa using hnd
      have hmv : mv = mm := by
        rcases List.mem_cons.mp hmem with heq | htl
        · exact (Prod.mk.injEq _ _ _ _ ▸ heq.symm).2
        · exfalso
          have hmem2 : mn ∈ tl.map Prod.fst := List.mem_map_of_mem Prod.fst htl
          exact (List.nodup_cons.mp hnd2).1 hmem2
      subst hmv
      exact thaiGo_hit fmt text mn mv day yr tl hin hscan
    · have hnd2 : (mn :: tl.map Prod.fst).Nodup := by simpa using hnd
      rw [thaiGo_skip fmt text mn mv tl (hne mn hmn)]
      apply ih
      · rcases List.mem_cons.mp hmem with heq | htl
        · exact absurd (congrArg Prod.fst heq).symm hmn
        · exact htl
      · exact (List.nodup_cons.mp hnd2).2

lemma thaiGo_none (fmt : String → String → String → String) (text : String)
    (L : List (String × String))
    (h : ∀ p ∈ L, strIn (Prod.fst p).data text.data = false) :
    thaiGo fmt text L = none := by
  induction L with
  | nil => rfl
  | cons hd tl ih =>
    obtain ⟨mn, mv⟩ := hd
    rw [thaiGo]
    have h1 : strIn mn.data text.data = false := h (mn, mv) (by simp)
    simp only [h1, Bool.false_eq_true, if_false]
    exact ih (fun p hp => h p (by simp [hp]))

/-! ### Digit and year lemmas -/

lemma digit_not_ws (c : Char) (h : c.isDigit = true) : c.isWhitespace = false := by
  by_contra hw
  rw [Bool.not_eq_false] at hw
  have : ((c = ' ' ∨ c = '\t') ∨ c = '\r') ∨ c = '\n' := by
    simpa [Char.isWhitespace] using hw
  rcases this with ((h1 | h1) | h1) | h1 <;> subst h1 <;> exact absurd h (by decide)

lemma pyInt?_digits (l : List Char) (h1 : l ≠ []) (h2 : l.all Char.isDigit = true) :
    pyInt? (String.mk l) = some ((digitsVal l : Nat) : Int) := by
  cases l with
  | nil => exact absurd rfl h1
  | cons c cs =>
    have hc : c.isDigit = true := by
      have := List.all_eq_true.mp h2 c (by simp)
      simpa using this
    have hplus : c ≠ '+' := by intro he; subst he; exact absurd hc (by decide)
    have hminus : c ≠ '-' := by intro he; subst he; exact absurd hc (by decide)
    simp only [pyInt?, hplus, hminus, if_false, h2, if_true, if_pos]

/-- The canonical year emitted by both `extract_date` variants for a string of
digits `ys`: `str(int(ys) - 543)` when the value exceeds 2500, else `ys`
verbatim.  This is the year expression every C1 conjunct compares against. -/
def yearOut (ys : String) : String :=
  if 2500 < ((digitsVal ys.data : Nat) : Int) then
    toString (((digitsVal ys.data : Nat) : Int) - 543)
  else ys

lemma beAdjust_digits (ys : String) (h4 : ys.data.length = 4)
    (hd : ys.data.all Char.isDigit = true) :
    beAdjust ys = some (yearOut ys) := by
  have hne : ys.data ≠ [] := by intro he; rw [he] at h4; simp at h4
  have hlen : ys.length = 4 := h4
  have hpy : pyInt? ys = some ((digitsVal ys.data : Nat) : Int) := by
    obtain ⟨l⟩ := ys
    exact pyInt?_digits l hne hd
  rw [beAdjust, if_pos hlen, hpy, yearOut]

lemma beNum_digits (ys : String) (hne : ys.data ≠ [])
    (hd : ys.data.all Char.isDigit = true) :
    beNum ys = some (yearOut ys) := by
  have hpy : pyInt? ys = some ((digitsVal ys.data : Nat) : Int) := by
    obtain ⟨l⟩ := ys
    exact pyInt?_digits l hne hd
  rw [beNum, hpy, yearOut]

/-! ### Lemmas about the regex scanners -/

lemma grabDigits_exact (ds rest : List Char) (h2 : ds.all Char.isDigit = true) :
    grabDigits ds.length (ds ++ rest) = some (ds, rest) := by
  induction ds with
  | nil => rfl
  | cons c cs ih =>
    have hc : c.isDigit = true := by
      have := List.all_eq_true.mp h2 c (by simp)
      simpa using this
    have h3 : cs.all Char.isDigit = true := by
      rw [List.all_eq_true] at h2 ⊢
      exact fun d hd => h2 d (by simp [hd])
    simp [grabDigits, hc, ih h3]

lemma grabDigits_subset (n : Nat) (l d r : List Char)
    (h : grabDigits n l = some (d, r)) : ∀ c ∈ r, c ∈ l := by
  induction n generalizing l d r with
  | zero =>
    simp only [grabDigits, Option.some.injEq, Prod.mk.injEq] at h
    obtain ⟨h1, h2⟩ := h
    subst h2
    exact fun c hc => hc
  | succ n ih =>
    cases l with
    | nil => simp [grabDigits] at h
    | cons c cs =>
      by_cases hc : c.isDigit = true
      · simp only [grabDigits, hc, if_true] at h
        cases hg : grabDigits n cs with
        | none => rw [hg] at h; simp at h
        | some p =>
          obtain ⟨d2, r2⟩ := p
          rw [hg] at h
          simp only [Option.map_some', Option.some.injEq, Prod.mk.injEq] at h
          obtain ⟨h1, h2⟩ := h
          subst h2
          exact fun x hx => List.mem_cons_of_mem _ (ih cs d2 _ hg x hx)
      · simp [grabDigits, hc] at h

lemma all_two (p : Char → Bool) (b c : Char) (h : [b, c].all p = true) :
    p b = true ∧ p c = true := by
  simp [List.all_cons] at h
  exact ⟨h.1, h.2⟩

lemma dmyAt_match (d1 d2 y rest : List Char)
    (h1 : d1.all Char.isDigit = true) (hl1 : d1.length = 1 ∨ d1.length = 2)
    (h2 : d2.all Char.isDigit = true) (hl2 : d2.length = 1 ∨ d2.length = 2)
    (hy : y.all Char.isDigit = true) (hly : y.length = 4) :
    dmyAt (d1 ++ '/' :: (d2 ++ '/' :: (y ++ rest))) =
      some (String.mk d1, String.mk d2, String.mk y) := by
  have hsl : ('/').isDigit = false := by decide
  have hgy : grabDigits 4 (y ++ rest) = some (y, rest) := by
    rw [← hly]; exact grabDigits_exact y rest hy
  rcases hl1 with hL1 | hL1
  · obtain ⟨a, ha⟩ := List.length_eq_one.mp hL1
    subst ha
    have hA : a.isDigit = true := by simpa using h1
    rcases hl2 with hL2 | hL2
    · obtain ⟨b, hb⟩ := List.length_eq_one.mp hL2
      subst hb
      have hB : b.isDigit = true := by simpa using h2
      simp [dmyAt, dmyAttempt, grabDigits, hA, hB, hsl, hgy, Option.orElse]
    · obtain ⟨b, c, hb⟩ := List.length_eq_two.mp hL2
      subst hb
      obtain ⟨hB, hC⟩ := all_two Char.isDigit b c h2
      simp [dmyAt, dmyAttempt, grabDigits, hA, hB, hC, hsl, hgy, Option.orElse]
  · obtain ⟨a, a2, ha⟩ := List.length_eq_two.mp hL1
    subst ha
    obtain ⟨hA, hA2⟩ := all_two Char.isDigit a a2 h1
    rcases hl2 with hL2 | hL2
    · obtain ⟨b, hb⟩ := List.length_eq_one.mp hL2
      subst hb
      have hB : b.isDigit = true := by simpa using h2
      simp [dmyAt, dmyAttempt, grabDigits, hA, hA2, hB, hsl, hgy, Option.orElse]
    · obtain ⟨b, c, hb⟩ := List.length_eq_two.mp hL2
      subst hb
      obtain ⟨hB, hC⟩ := all_two Char.isDigit b c h2
      simp [dmyAt, dmyAttempt, grabDigits, hA, hA2, hB, hC, hsl, hgy, Option.orElse]

lemma ymdAt_match (y mo dd : List Char)
    (hy : y.all Char.isDigit = true) (hly : y.length = 4)
    (h1 : mo.all Char.isDigit = true) (hl1 : mo.length = 1 ∨ mo.length = 2)
    (h2 : dd.all Char.isDigit = true) (hl2 : dd.length = 1 ∨ dd.length = 2) :
    ymdAt (y ++ '-' :: (mo ++ '-' :: dd)) =
      some (String.mk y, String.mk mo, String.mk dd) := by
  have hsl : ('-').isDigit = false := by decide
  rcases hl1 with hL1 | hL1
  · obtain ⟨a, ha⟩ := List.length_eq_one.mp hL1
    subst ha
    have hA : a.isDigit = true := by simpa using h1
    rcases hl2 with hL2 | hL2
    · obtain ⟨b, hb⟩ := List.length_eq_one.mp hL2
      subst hb
      have hB : b.isDigit = true := by simpa using h2
      have hgy : grabDigits 4 (y ++ ['-', a, '-', b]) = some (y, ['-', a, '-', b]) := by
        rw [← hly]; exact grabDigits_exact y _ hy
      simp [ymdAt, ymdAttempt, grabDigits, hA, hB, hsl, hgy, Option.orElse]
    · obtain ⟨b, c, hb⟩ := List.length_eq_two.mp hL2
      subst hb
      obtain ⟨hB, hC⟩ := all_two Char.isDigit b c h2
      have hgy : grabDigits 4 (y ++ ['-', a, '-', b, c]) =
          some (y, ['-', a, '-', b, c]) := by
        rw [← hly]; exact grabDigits_exact y _ hy
      simp [ymdAt, ymdAttempt, grabDigits, hA, hB, hC, hsl, hgy, Option.orElse]
  · obtain ⟨a, a2, ha⟩ := List.length_eq_two.mp hL1
    subst ha
    obtain ⟨hA, hA2⟩ := all_two Char.isDigit a a2 h1
    rcases hl2 with hL2 | hL2
    · obtain ⟨b, hb⟩ := List.length_eq_one.mp hL2
      subst hb
      have hB : b.isDigit = true := by simpa using h2
      have hgy : grabDigits 4 (y ++ ['-', a, a2, '-', b]) =
          some (y, ['-', a, a2, '-', b]) := by
        rw [← hly]; exact grabDigits_exact y _ hy
      simp [ymdAt, ymdAttempt, grabDigits, hA, hA2, hB, hsl, hgy, Option.orElse]
    · obtain ⟨b, c, hb⟩ := List.length_eq_two.mp hL2
      subst hb
      obtain ⟨hB, hC⟩ := all_two Char.isDigit b c h2
      have hgy : grabDigits 4 (y ++ ['-', a, a2, '-', b, c]) =
          some (y, ['-', a, a2, '-', b, c]) := by
        rw [← hly]; exact grabDigits_exact y _ hy
      simp [ymdAt, ymdAttempt, grabDigits, hA, hA2, hB, hC, hsl, hgy, Option.orElse]

lemma dmyAttempt_none (n1 n2 : Nat) (l : List Char) (h : ('/') ∉ l) :
    dmyAttempt n1 n2 l = none := by
  cases hg : grabDigits n1 l with
  | none => simp [dmyAttempt, hg]
  | some p =>
    obtain ⟨d, r⟩ := p
    cases r with
    | nil => simp [dmyAttempt, hg]
    | cons c1 r2 =>
      have hc1 : c1 ∈ l := grabDigits_subset n1 l d (c1 :: r2) hg c1 (by simp)
      have hne : ¬(c1 = '/') := fun he => h (he ▸ hc1)
      simp [dmyAttempt, hg, hne]

lemma dmySearch_none (l : List Char) (h : ('/') ∉ l) : dmySearch l = none := by
  induction l with
  | nil => rfl
  | cons c cs ih =>
    have hcs : ('/') ∉ cs := fun hx => h (List.mem_cons_of_mem _ hx)
    have ha : dmyAt (c :: cs) = none := by
      simp [dmyAt, dmyAttempt_none _ _ _ h, Option.orElse]
    rw [dmySearch, ha]
    exact ih hcs

lemma dmySearch_of_at (l : List Char) (r : String × String × String)
    (hne : l ≠ []) (h : dmyAt l = some r) : dmySearch l = some r := by
  cases l with
  | nil => exact absurd rfl hne
  | cons c cs => rw [dmySearch, h]

lemma ymdSearch_of_at (l : List Char) (r : String × String × String)
    (hne : l ≠ []) (h : ymdAt l = some r) : ymdSearch l = some r := by
  cases l with
  | nil => exact absurd rfl hne
  | cons c cs => rw [ymdSearch, h]

/-! ### Facts about the Thai month lexicon, by computation -/

/-- The head character of a month name is not a digit, a slash, a hyphen or
whitespace (it is a Thai letter). -/
def headNotNum : List Char → Bool
  | [] => false
  | c :: _ => !c.isDigit && !(c = '/') && !(c = '-') && !c.isWhitespace

lemma months_headOk : thMonths.all (fun p => headNotNum p.1.data) = true := by decide

lemma months_noWs :
    thMonths.all (fun p => p.1.data.all (fun c => !c.isWhitespace)) = true := by decide

lemma months_nodup : (thMonths.map Prod.fst).Nodup := by decide

lemma month_head_props (mn mv : String) (hm : (mn, mv) ∈ thMonths) :
    ∃ c cs, mn.data = c :: cs ∧ c.isDigit = false ∧ c ≠ '/' ∧ c ≠ '-' := by
  have hall := List.all_eq_true.mp months_headOk (mn, mv) hm
  cases hd : mn.data with
  | nil => rw [hd] at hall; simp [headNotNum] at hall
  | cons c cs =>
    rw [hd] at hall
    simp only [headNotNum, Bool.and_eq_true, Bool.not_eq_true', decide_eq_false_iff_not] at hall
    exact ⟨c, cs, rfl, hall.1.1.1, hall.1.1.2, hall.1.2⟩

lemma month_ne_nil (mn mv : String) (hm : (mn, mv) ∈ thMonths) : mn.data ≠ [] := by
  obtain ⟨c, cs, hd, _⟩ := month_head_props mn mv hm
  rw [hd]; simp

lemma month_noWs (mn mv : String) (hm : (mn, mv) ∈ thMonths) :
    ∀ c ∈ mn.data, c.isWhitespace = false := by
  have hall := List.all_eq_true.mp months_noWs (mn, mv) hm
  intro c hc
  have := List.all_eq_true.mp hall c hc
  simpa using this

lemma strIn_false_of_chars (p : String) (hay : List Char)
    (hp : ∃ c cs, p.data = c :: cs ∧ c.isDigit = false ∧ c ≠ '/' ∧ c ≠ '-')
    (hhay : ∀ c ∈ hay, c.isDigit = true ∨ c = '/' ∨ c = '-') :
    strIn p.data hay = false := by
  obtain ⟨c, cs, hd, hdig, hsl, hhy⟩ := hp
  rw [hd]
  by_contra hb
  rw [Bool.not_eq_false] at hb
  have hc := strIn_head_mem c cs hay hb
  rcases hhay c hc with hx | hx | hx
  · rw [hx] at hdig; exact Bool.noConfusion hdig
  · exact hsl hx
  · exact hhy hx

lemma mkData (s : String) : String.mk s.data = s := by cases s; rfl

/-! ### The three `dateBody` evaluation lemmas behind C1 -/

lemma dateBody_thai (fmt : String → String → String → String) (dflt ds m mm ys : String)
    (hm : (m, mm) ∈ thMonths)
    (hds1 : ds.data ≠ []) (hds2 : ds.data.all Char.isDigit = true)
    (hys4 : ys.data.length = 4) (hysd : ys.data.all Char.isDigit = true) :
    dateBody fmt dflt (ds ++ " " ++ m ++ " " ++ ys) =
      .ok (fmt (zfill2 ds) mm (yearOut ys)) := by
  have hdsws : ∀ c ∈ ds.data, c.isWhitespace = false := fun c hc =>
    digit_not_ws c (List.all_eq_true.mp hds2 c hc)
  have hysws : ∀ c ∈ ys.data, c.isWhitespace = false := fun c hc =>
    digit_not_ws c (List.all_eq_true.mp hysd c hc)
  have hysne : ys.data ≠ [] := by intro h; rw [h] at hys4; simp at hys4
  have hmws := month_noWs m mm hm
  have hmne := month_ne_nil m mm hm
  have hsplit : pySplitWs (ds ++ " " ++ m ++ " " ++ ys) = [ds, m, ys] :=
    pySplitWs_three ds m ys hds1 hdsws hmne hmws hysne hysws
  have hscan : thaiScan m (pySplitWs (ds ++ " " ++ m ++ " " ++ ys)) =
      some (zfill2 ds, ys) := by
    rw [hsplit, thaiScan_triple, if_pos rfl]
  have hne : ∀ mn, mn ≠ m →
      thaiScan mn (pySplitWs (ds ++ " " ++ m ++ " " ++ ys)) = none := by
    intro mn hmn
    rw [hsplit, thaiScan_triple, if_neg (fun he => hmn he.symm)]
  have hin : strIn m.data (ds ++ " " ++ m ++ " " ++ ys).data = true := by
    have hform : (ds ++ " " ++ m ++ " " ++ ys).data =
        (ds.data ++ [' ']) ++ (m.data ++ (' ' :: ys.data)) := by
      simp [String.data_append]
    rw [hform]
    exact strIn_of_append _ _ _
  have hgo := thaiGo_eq_of_mem fmt (ds ++ " " ++ m ++ " " ++ ys) m mm
    (zfill2 ds) ys thMonths hm months_nodup hin hscan hne
  rw [dateBody, hgo, beAdjust_digits ys hys4 hysd]

lemma dateBody_dmy (fmt : String → String → String → String) (dflt d1 d2 ys : String)
    (h1 : d1.data.all Char.isDigit = true)
    (hl1 : d1.data.length = 1 ∨ d1.data.length = 2)
    (h2 : d2.data.all Char.isDigit = true)
    (hl2 : d2.data.length = 1 ∨ d2.data.length = 2)
    (hy : ys.data.all Char.isDigit = true) (hly : ys.data.length = 4) :
    dateBody fmt dflt (d1 ++ "/" ++ d2 ++ "/" ++ ys) =
      .ok (fmt (zfill2 d1) (zfill2 d2) (yearOut ys)) := by
  have hysne : ys.data ≠ [] := by intro h; rw [h] at hly; simp at hly
  have hd1ne : d1.data ≠ [] := by
    intro h; rcases hl1 with hx | hx <;> rw [h] at hx <;> simp at hx
  have hdata : (d1 ++ "/" ++ d2 ++ "/" ++ ys).data =
      d1.data ++ '/' :: (d2.data ++ '/' :: (ys.data ++ [])) := by
    simp [String.data_append]
  have hchars : ∀ c ∈ (d1 ++ "/" ++ d2 ++ "/" ++ ys).data,
      c.isDigit = true ∨ c = '/' ∨ c = '-' := by
    rw [hdata]
    intro c hc
    simp only [List.mem_append, List.mem_cons, List.append_nil] at hc
    rcases hc with hx | hx | hx | hx | hx
    · exact Or.inl (List.all_eq_true.mp h1 c hx)
    · exact Or.inr (Or.inl hx)
    · exact Or.inl (List.all_eq_true.mp h2 c hx)
    · exact Or.inr (Or.inl hx)
    · exact Or.inl (List.all_eq_true.mp hy c hx)
  have hthai : thaiGo fmt (d1 ++ "/" ++ d2 ++ "/" ++ ys) thMonths = none := by
    apply thaiGo_none
    intro p hp
    exact strIn_false_of_chars p.1 _
      (month_head_props p.1 p.2 (by simpa using hp)) hchars
  have hat : dmyAt (d1 ++ "/" ++ d2 ++ "/" ++ ys).data =
      some (String.mk d1.data, String.mk d2.data, String.mk ys.data) := by
    rw [hdata]
    exact dmyAt_match d1.data d2.data ys.data [] h1 hl1 h2 hl2 hy hly
  have hsearch : dmySearch (d1 ++ "/" ++ d2 ++ "/" ++ ys).data =
      some (String.mk d1.data, String.mk d2.data, String.mk ys.data) := by
    apply dmySearch_of_at _ _ _ hat
    rw [hdata]
    intro he
    exact hd1ne (List.append_eq_nil.mp he).1
  rw [dateBody, hthai, hsearch, mkData, mkData, mkData]
  show (match beNum ys with
        | some y2 => Except.ok (fmt (zfill2 d1) (zfill2 d2) y2)
        | none => Except.error ()) = _
  rw [beNum_digits ys hysne hy]

lemma dateBody_ymd (fmt : String → String → String → String) (dflt ys mo dd : String)
    (hy : ys.data.all Char.isDigit = true) (hly : ys.data.length = 4)
    (h1 : mo.data.all Char.isDigit = true)
    (hl1 : mo.data.length = 1 ∨ mo.data.length = 2)
    (h2 : dd.data.all Char.isDigit = true)
    (hl2 : dd.data.length = 1 ∨ dd.data.length = 2) :
    dateBody fmt dflt (ys ++ "-" ++ mo ++ "-" ++ dd) =
      .ok (fmt (zfill2 dd) (zfill2 mo) (yearOut ys)) := by
  have hysne : ys.data ≠ [] := by intro h; rw [h] at hly; simp at hly
  have hdata : (ys ++ "-" ++ mo ++ "-" ++ dd).data =
      ys.data ++ '-' :: (mo.data ++ '-' :: dd.data) := by
    simp [String.data_append]
  have hchars : ∀ c ∈ (ys ++ "-" ++ mo ++ "-" ++ dd).data,
      c.isDigit = true ∨ c = '-' := by
    rw [hdata]
    intro c hc
    simp only [List.mem_append, List.mem_cons] at hc
    rcases hc with hx | hx | hx | hx | hx
    · exact Or.inl (List.all_eq_true.mp hy c hx)
    · exact Or.inr hx
    · exact Or.inl (List.all_eq_true.mp h1 c hx)
    · exact Or.inr hx
    · exact Or.inl (List.all_eq_true.mp h2 c hx)
  have hchars3 : ∀ c ∈ (ys ++ "-" ++ mo ++ "-" ++ dd).data,
      c.isDigit = true ∨ c = '/' ∨ c = '-' := by
    intro c hc
    rcases hchars c hc with hx | hx
    · exact Or.inl hx
    · exact Or.inr (Or.inr hx)
  have hthai : thaiGo fmt (ys ++ "-" ++ mo ++ "-" ++ dd) thMonths = none := by
    apply thaiGo_none
    intro p hp
    exact strIn_false_of_chars p.1 _
      (month_head_props p.1 p.2 (by simpa using hp)) hchars3
  have hslash : ('/') ∉ (ys ++ "-" ++ mo ++ "-" ++ dd).data := by
    intro hmem
    rcases hchars '/' hmem with hx | hx
    · exact absurd hx (by decide)
    · exact absurd hx (by decide)
  have hdmy : dmySearch (ys ++ "-" ++ mo ++ "-" ++ dd).data = none :=
    dmySearch_none _ hslash
  have hat : ymdAt (ys ++ "-" ++ mo ++ "-" ++ dd).data =
      some (String.mk ys.data, String.mk mo.data, String.mk dd.data) := by
    rw [hdata]
    exact ymdAt_match ys.data mo.data dd.data hy hly h1 hl1 h2 hl2
  have hsearch : ymdSearch (ys ++ "-" ++ mo ++ "-" ++ dd).data =
      some (String.mk ys.data, String.mk mo.data, String.mk dd.data) := by
    apply ymdSearch_of_at _ _ _ hat
    rw [hdata]
    intro he
    exact hysne (List.append_eq_nil.mp he).1
  rw [dateBody, hthai, hdmy, hsearch, mkData, mkData, mkData]
  show (match beNum ys with
        | some y2 => Except.ok (fmt (zfill2 dd) (zfill2 mo) y2)
        | none => Except.error ()) = _
  rw [beNum_digits ys hysne hy]

lemma extract_date1_eq (text r : String) (hlen : 2 ≤ text.data.length)
    (hb : dateBody fmtDMY "" text = .ok r) : extract_date1 text = r := by
  have h1 : ¬(text = "" ∨ text = "-") := by
    rintro (he | he) <;> subst he <;> exact absurd hlen (by decide)
  rw [extract_date1, if_neg h1, hb]

lemma extract_date2_eq (text r : String) (hlen : 2 ≤ text.data.length)
    (hb : dateBody fmtYMD text text = .ok r) : extract_date2 text = r := by
  have h1 : ¬(text = "" ∨ text = "-") := by
    rintro (he | he) <;> subst he <;> exact absurd hlen (by decide)
  rw [extract_date2, if_neg h1, hb]

/-- C1: on every input matching one of the three recognized date patterns
(Thai `<day> <MonthName> <year>` over the twelve-month lexicon, numeric
`D/M/Y` with a 4-digit year, numeric `Y-M-D`), both `extract_date` variants
emit `year - 543` whenever the parsed 4-digit year exceeds 2500 and the year
unchanged whenever it is at most 2500 — uniformly across patterns
(`yearOut` is the common year expression and is characterized by the last two
quantified conjuncts); in particular Thai month "เมษายน" with day "1" and year
"2564" yields `01-04-2021` / `2021-04-01` respectively. -/
theorem C1_buddhist_era_normalization
    (ds m mm ys d1 d2 mo dd : String)
    (hm : (m, mm) ∈ thMonths)
    (hds1 : ds.data ≠ []) (hds2 : ds.data.all Char.isDigit = true)
    (hys4 : ys.data.length = 4) (hysd : ys.data.all Char.isDigit = true)
    (hd11 : d1.data.length = 1 ∨ d1.data.length = 2)
    (hd12 : d1.data.all Char.isDigit = true)
    (hd21 : d2.data.length = 1 ∨ d2.data.length = 2)
    (hd22 : d2.data.all Char.isDigit = true)
    (hmo1 : mo.data.length = 1 ∨ mo.data.length = 2)
    (hmo2 : mo.data.all Char.isDigit = true)
    (hdd1 : dd.data.length = 1 ∨ dd.data.length = 2)
    (hdd2 : dd.data.all Char.isDigit = true) :
    extract_date1 (ds ++ " " ++ m ++ " " ++ ys) =
        zfill2 ds ++ "-" ++ mm ++ "-" ++ yearOut ys
  ∧ extract_date2 (ds ++ " " ++ m ++ " " ++ ys) =
        yearOut ys ++ "-" ++ mm ++ "-" ++ zfill2 ds
  ∧ extract_date1 (d1 ++ "/" ++ d2 ++ "/" ++ ys) =
        zfill2 d1 ++ "-" ++ zfill2 d2 ++ "-" ++ yearOut ys
  ∧ extract_date2 (d1 ++ "/" ++ d2 ++ "/" ++ ys) =
        yearOut ys ++ "-" ++ zfill2 d2 ++ "-" ++ zfill2 d1
  ∧ extract_date1 (ys ++ "-" ++ mo ++ "-" ++ dd) =
        zfill2 dd ++ "-" ++ zfill2 mo ++ "-" ++ yearOut ys
  ∧ extract_date2 (ys ++ "-" ++ mo ++ "-" ++ dd) =
        yearOut ys ++ "-" ++ zfill2 mo ++ "-" ++ zfill2 dd
  ∧ (2500 < ((digitsVal ys.data : Nat) : Int) →
        yearOut ys = toString (((digitsVal ys.data : Nat) : Int) - 543))
  ∧ (((digitsVal ys.data : Nat) : Int) ≤ 2500 → yearOut ys = ys)
  ∧ extract_date1 "1 เมษายน 2564" = "01-04-2021"
  ∧ extract_date2 "1 เมษายน 2564" = "2021-04-01" := by
  have hmne := month_ne_nil m mm hm
  have hdspos : 0 < ds.data.length := List.length_pos.mpr hds1
  have hmpos : 0 < m.data.length := List.length_pos.mpr hmne
  have hd1pos : 0 < d1.data.length := by rcases hd11 with h | h <;> omega
  have hyspos : 0 < ys.data.length := by omega
  have hlen1 : 2 ≤ (ds ++ " " ++ m ++ " " ++ ys).data.length := by
    simp only [String.data_append, List.length_append, List.length_cons]
    simp
    omega
  have hlen2 : 2 ≤ (d1 ++ "/" ++ d2 ++ "/" ++ ys).data.length := by
    simp only [String.data_append, List.length_append, List.length_cons]
    simp
    omega
  have hlen3 : 2 ≤ (ys ++ "-" ++ mo ++ "-" ++ dd).data.length := by
    simp only [String.data_append, List.length_append, List.length_cons]
    simp
    omega
  refine ⟨?_, ?_, ?_, ?_, ?_, ?_, ?_, ?_, ?_, ?_⟩
  · exact extract_date1_eq _ _ hlen1
      (dateBody_thai fmtDMY "" ds m mm ys hm hds1 hds2 hys4 hysd)
  · exact extract_date2_eq _ _ hlen1
      (dateBody_thai fmtYMD _ ds m mm ys hm hds1 hds2 hys4 hysd)
  · exact extract_date1_eq _ _ hlen2
      (dateBody_dmy fmtDMY "" d1 d2 ys hd12 hd11 hd22 hd21 hysd hys4)
  · exact extract_date2_eq _ _ hlen2
      (dateBody_dmy fmtYMD _ d1 d2 ys hd12 hd11 hd22 hd21 hysd hys4)
  · exact extract_date1_eq _ _ hlen3
      (dateBody_ymd fmtDMY "" ys mo dd hysd hys4 hmo2 hmo1 hdd2 hdd1)
  · exact extract_date2_eq _ _ hlen3
      (dateBody_ymd fmtYMD _ ys mo dd hysd hys4 hmo2 hmo1 hdd2 hdd1)
  · intro h; rw [yearOut, if_pos h]
  · intro h; rw [yearOut, if_neg (by omega)]
  · decide
  · decide

/-- Concrete instantiation of `C1_buddhist_era_normalization`
(day 7, month มีนาคม = 03, year 2560 → CE 2017; all hypotheses discharged by
computation). -/
theorem C1_buddhist_era_normalization_witness :
    extract_date1 "7 มีนาคม 2560" = "07-03-2017" := by
  have h := (C1_buddhist_era_normalization "7" "มีนาคม" "03" "2560" "3" "12" "4" "25"
    (by decide) (by decide) (by decide) (by decide) (by decide) (by decide)
    (by decide) (by decide) (by decide) (by decide) (by decide) (by decide)
    (by decide)).1
  have e1 : ("7" ++ " " ++ "มีนาคม" ++ " " ++ "2560" : String) = "7 มีนาคม 2560" := by
    decide
  have e2 : zfill2 "7" ++ "-" ++ "03" ++ "-" ++ yearOut "2560" = "07-03-2017" := by
    decide
  rw [e1, e2] at h
  exact h

/-! ### URL model: `WebScraper.clean_url` (`src/main.py` lines 60-98)

The textual clean-up is embedded directly; `urllib.parse.urlsplit` /
`urlparse` / `urljoin` (external standard-library collaborators) are embedded
following CPython's `urllib/parse.py`, restricted to `allow_fragments=True`
and without the IPv6-bracket `ValueError` (the scraped URLs never produce
it). -/

/-- Python `str.strip()` (whitespace, both ends). -/
def pyStrip (s : String) : String :=
  String.mk (((s.data.dropWhile Char.isWhitespace).reverse.dropWhile
    Char.isWhitespace).reverse)

/-- Python `str.strip(',')`. -/
def pyStripComma (s : String) : String :=
  String.mk (((s.data.dropWhile (fun c => c = ',')).reverse.dropWhile
    (fun c => c = ',')).reverse)

/-- Python `str.replace("\\", "/")`. -/
def replaceBackslash (s : String) : String :=
  String.mk (s.data.map (fun c => if c = '\\' then '/' else c))

/-- Length of the leading run of commas. -/
def commaRun : List Char → Nat
  | [] => 0
  | c :: cs => if c = ',' then commaRun cs + 1 else 0

/-- On the reversed character list: length of a trailing
`,+\d{4}-\d{2}-\d{2}` match of the original string (0 when there is none).
Reversed, the pattern reads `\d{2}-\d{2}-\d{4},+`. -/
def dateSuffixDropLen (rev : List Char) : Nat :=
  match rev with
  | a :: b :: x1 :: c :: d :: x2 :: e :: f :: g :: h :: rest =>
    if a.isDigit ∧ b.isDigit ∧ x1 = '-' ∧ c.isDigit ∧ d.isDigit ∧ x2 = '-'
        ∧ e.isDigit ∧ f.isDigit ∧ g.isDigit ∧ h.isDigit then
      (if commaRun rest = 0 then 0 else 10 + commaRun rest)
    else 0
  | _ => 0

/-- `re.sub(r',+\d{4}-\d{2}-\d{2}$', '', url)`: the `$`-anchored pattern can
only match a suffix, with the maximal comma run (leftmost match start). -/
def dateSuffixSub (s : String) : String :=
  String.mk ((s.data.reverse.drop (dateSuffixDropLen s.data.reverse)).reverse)

/-- The textual clean-up pass of `clean_url`:
`url.strip().replace("\\", "/").strip(',')` followed by the `re.sub`. -/
def textClean (s : String) : String :=
  dateSuffixSub (pyStripComma (replaceBackslash (pyStrip s)))

/-- `url.startswith(('http://', 'https://'))`. -/
def startsWithHttp (s : String) : Bool :=
  pfxB "http://".data s.data || pfxB "https://".data s.data

/-- Python `str.lstrip('/')`. -/
def pyLstripSlash (s : String) : String :=
  String.mk (s.data.dropWhile (fun c => c = '/'))

/-- `urlsplit` removes every tab, CR and LF (`_UNSAFE_URL_BYTES_TO_REMOVE`). -/
def stripUnsafe (l : List Char) : List Char :=
  l.filter (fun c => ¬(c = '\t' ∨ c = '\r' ∨ c = '\n'))

/-- Split a list at the first occurrence of `d` (Python `find` + slicing). -/
def splitFirst (d : Char) : List Char → Option (List Char × List Char)
  | [] => none
  | c :: cs =>
    if c = d then some ([], cs)
    else
      match splitFirst d cs with
      | some (a, b) => some (c :: a, b)
      | none => none

/-- The characters allowed in a URL scheme (`scheme_chars`). -/
def schemeChars (c : Char) : Bool :=
  c.isAlpha || c.isDigit || c = '+' || c = '-' || c = '.'

/-- Lowercase a scheme (`url[:i].lower()`; schemes are ASCII). -/
def lowerStr (l : List Char) : List Char := l.map Char.toLower

/-- Scheme extraction of `urlsplit`: the text before the first `':'` must be
nonempty, start with an ASCII letter, and consist of scheme characters. -/
def splitScheme (l : List Char) : Option (List Char × List Char) :=
  match splitFirst ':' l with
  | none => none
  | some (before, after) =>
    match before with
    | [] => none
    | c :: cs =>
      if c.isAlpha = true ∧ (c :: cs).all schemeChars = true then
        some (lowerStr (c :: cs), after)
      else none

/-- `_splitnetloc`: the netloc runs until the first `'/'`, `'?'` or `'#'`. -/
def takeNetloc : List Char → List Char
  | [] => []
  | c :: cs => if c = '/' ∨ c = '?' ∨ c = '#' then [] else c :: takeNetloc cs

/-- The remainder of the URL after the netloc. -/
def dropNetloc : List Char → List Char
  | [] => []
  | c :: cs => if c = '/' ∨ c = '?' ∨ c = '#' then c :: cs else dropNetloc cs

/-- The components produced by `urlparse` (`params` stays `[]` under plain
`urlsplit`). -/
structure UrlP where
  scheme : List Char
  netloc : List Char
  path : List Char
  params : List Char
  query : List Char
  frag : List Char
deriving DecidableEq, Repr

/-- Scheme extraction with a default (`urlsplit(url, scheme=dflt)`). -/
def schemeSplitOr (dflt : List Char) (u : List Char) : List Char × List Char :=
  match splitScheme u with
  | some (sc, r) => (sc, r)
  | none => (dflt, u)

/-- Netloc extraction: only when the remainder starts with `'//'`. -/
def netlocSplit (rest : List Char) : List Char × List Char :=
  if pfxB ['/', '/'] rest then (takeNetloc (rest.drop 2), dropNetloc (rest.drop 2))
  else ([], rest)

/-- `url.split('#', 1)` when a fragment is present. -/
def fragSplit (u : List Char) : List Char × List Char :=
  match splitFirst '#' u with
  | some (a, b) => (a, b)
  | none => (u, [])

/-- `url.split('?', 1)` when a query is present. -/
def querySplit (u : List Char) : List Char × List Char :=
  match splitFirst '?' u with
  | some (a, b) => (a, b)
  | none => (u, [])

/-- `urllib.parse.urlsplit(url, scheme=dflt)`. -/
def urlsplitM (dflt : List Char) (u0 : List Char) : UrlP :=
  let u := stripUnsafe u0
  let sp := schemeSplitOr dflt u
  let nl := netlocSplit sp.2
  let fr := fragSplit nl.2
  let pq := querySplit fr.1
  ⟨sp.1, nl.1, pq.1, [], pq.2, fr.2⟩

/-- `_splitparams`: split `path;params`, looking for `';'` only after the last
`'/'`. -/
def splitParams (p : List Char) : List Char × List Char :=
  if ('/') ∈ p then
    let seg := (p.reverse.takeWhile (fun c => ¬(c = '/'))).reverse
    let ini := (p.reverse.dropWhile (fun c => ¬(c = '/'))).reverse
    match splitFirst ';' seg with
    | some (a, b) => (ini ++ a, b)
    | none => (p, [])
  else
    match splitFirst ';' p with
    | some (a, b) => (a, b)
    | none => (p, [])

/-- `urllib.parse.urlparse(url, scheme=dflt)`. -/
def urlparseM (dflt : List Char) (u : List Char) : UrlP :=
  let sp := urlsplitM dflt u
  let pp := splitParams sp.path
  ⟨sp.scheme, sp.netloc, pp.1, pp.2, sp.query, sp.frag⟩

/-- `urllib.parse.urlunparse` (via `urlunsplit`). -/
def urlunparseM (p : UrlP) : List Char :=
  let url := if p.params ≠ [] then p.path ++ ';' :: p.params else p.path
  let url2 :=
    if p.netloc ≠ [] ∨ pfxB ['/', '/'] url = true then
      ('/' :: '/' :: p.netloc) ++
        (if url ≠ [] ∧ ¬(pfxB ['/'] url = true) then '/' :: url else url)
    else url
  let url3 := if p.scheme ≠ [] then p.scheme ++ ':' :: url2 else url2
  let url4 := if p.query ≠ [] then url3 ++ '?' :: p.query else url3
  if p.frag ≠ [] then url4 ++ '#' :: p.frag else url4

/-- `uses_relative` of `urllib.parse`. -/
def usesRelative : List String :=
  ["", "ftp", "http", "gopher", "nntp", "imap", "wais", "file", "https",
   "shttp", "mms", "prospero", "rtsp", "rtspu", "sftp", "svn", "svn+ssh",
   "ws", "wss"]

/-- `uses_netloc` of `urllib.parse`. -/
def usesNetloc : List String :=
  ["", "ftp", "http", "gopher", "nntp", "telnet", "imap", "wais", "file",
   "mms", "https", "shttp", "snews", "prospero", "rtsp", "rtspu", "rsync",
   "svn", "svn+ssh", "sftp", "nfs", "git", "git+ssh", "ws", "wss"]

/-- Python `'...'.split('/')` (at least one chunk). -/
def splitOnSlash : List Char → List (List Char)
  | [] => [[]]
  | c :: cs =>
    match splitOnSlash cs with
    | [] => [[]]
    | h :: t => if c = '/' then [] :: h :: t else (c :: h) :: t

/-- Python `'/'.join(...)`. -/
def joinSlash : List (List Char) → List Char
  | [] => []
  | [x] => x
  | x :: y :: t => x ++ '/' :: joinSlash (y :: t)

/-- `segments[1:-1] = filter(None, segments[1:-1])`. -/
def filterMiddle : List (List Char) → List (List Char)
  | [] => []
  | [x] => [x]
  | x :: y :: t =>
    x :: (((y :: t).dropLast.filter (fun seg => ¬seg.isEmpty)) ++
      [(y :: t).getLast (by simp)])

/-- The `resolved_path` loop of `urljoin`: `'..'` pops (ignoring underflow),
`'.'` is skipped, and a trailing `'.'`/`'..'` re-appends an empty segment. -/
def resolveSegs (segs : List (List Char)) : List (List Char) :=
  let res := segs.foldl (fun acc seg =>
    if seg = ['.', '.'] then acc.dropLast
    else if seg = ['.'] then acc
    else acc ++ [seg]) []
  match segs.getLast? with
  | some seg => if seg = ['.', '.'] ∨ seg = ['.'] then res ++ [[]] else res
  | none => res

/-- `if base_parts[-1] != '': del base_parts[-1]`. -/
def delLastNonempty (parts : List (List Char)) : List (List Char) :=
  match parts.getLast? with
  | some lst => if lst ≠ [] then parts.dropLast else parts
  | none => parts

/-- The path-merging tail of `urljoin`: drop the base path's last segment
unless empty, graft the relative segments (collapsing empty middle segments),
resolve `'.'`/`'..'`, and re-join. -/
def joinResolve (bpath rpath : List Char) : List Char :=
  let bp := delLastNonempty (splitOnSlash bpath)
  let segments :=
    if pfxB ['/'] rpath then splitOnSlash rpath
    else filterMiddle (bp ++ splitOnSlash rpath)
  let path2 := joinSlash (resolveSegs segments)
  if path2 = [] then ['/'] else path2

/-- `urllib.parse.urljoin(base, url)`. -/
def urljoinM (base url : String) : String :=
  if base = "" then url
  else if url = "" then base
  else
    let b := urlparseM [] base.data
    let r := urlparseM b.scheme url.data
    if ¬(r.scheme = b.scheme) ∨ (String.mk r.scheme) ∉ usesRelative then url
    else
      if (String.mk r.scheme) ∈ usesNetloc ∧ r.netloc ≠ [] then
        String.mk (urlunparseM ⟨r.scheme, r.netloc, r.path, r.params, r.query, r.frag⟩)
      else
        let netloc := if (String.mk r.scheme) ∈ usesNetloc then b.netloc else r.netloc
        if r.path = [] ∧ r.params = [] then
          let query := if r.query = [] then b.query else r.query
          String.mk (urlunparseM ⟨r.scheme, netloc, b.path, b.params, query, r.frag⟩)
        else
          String.mk (urlunparseM
            ⟨r.scheme, netloc, joinResolve b.path r.path, r.params, r.query, r.frag⟩)

/-- The target-domain needle of the guard `"innwhy.com" in parsed.netloc`. -/
def innwhy : List Char := "innwhy.com".data

/-- The final guard of `clean_url`:
`if parsed.netloc and "innwhy.com" in parsed.netloc: return url; return None`. -/
def cleanGuard (u2 : String) : Option String :=
  if (urlsplitM [] u2.data).netloc ≠ [] ∧
      strIn innwhy (urlsplitM [] u2.data).netloc = true then some u2
  else none

/-- `WebScraper.clean_url` (`src/main.py` lines 60-98), with the instance's
`base_url` as an explicit parameter.  Python's falsy check `if not url` is the
`url = ""` test (a `None` argument behaves identically). -/
def clean_url (base : String) (url : String) : Option String :=
  if url = "" then none
  else
    let u1 := textClean url
    let u2 := if startsWithHttp u1 then u1 else urljoinM base (pyLstripSlash u1)
    cleanGuard u2

example : clean_url "https://www.innwhy.com/pr-news/" "/foo" =
    some "https://www.innwhy.com/pr-news/foo" := by decide
example : clean_url "https://www.innwhy.com/pr-news/" "https://evil.example/x" =
    none := by decide
example : clean_url "https://www.innwhy.com/pr-news/" "https://www.innwhy.com/a" =
    some "https://www.innwhy.com/a" := by decide
example : clean_url "https://www.innwhy.com/pr-news/" "../up" =
    some "https://www.innwhy.com/up" := by decide
example : clean_url "https://www.innwhy.com/pr-news/" "" = none := by decide

/-! ### C4 and C5: the domain guard and idempotence of `clean_url` -/

/-- Whatever `clean_url` returns passed the final guard: the returned URL's
parsed netloc is nonempty and contains `"innwhy.com"` as a substring. -/
lemma cleanGuard_some (u2 r : String) (h : cleanGuard u2 = some r) :
    (urlsplitM [] r.data).netloc ≠ [] ∧
      strIn innwhy (urlsplitM [] r.data).netloc = true := by
  rw [cleanGuard] at h
  split at h
  next hc =>
    injection h with h2
    subst h2
    exact hc
  next hc => cases h

lemma clean_url_accepted (base url r : String) (h : clean_url base url = some r) :
    (urlsplitM [] r.data).netloc ≠ [] ∧
      strIn innwhy (urlsplitM [] r.data).netloc = true := by
  by_cases h0 : url = ""
  · rw [clean_url, if_pos h0] at h; cases h
  · simp only [clean_url, h0, if_false] at h
    exact cleanGuard_some _ r h

/-- C4 (amended): `clean_url` accepts a URL only when the parsed host
*contains* `"innwhy.com"` as a substring (nonempty netloc); the guard is
substring containment, not host equality, so the amended boundary is
"netloc does not contain innwhy.com ⇒ rejected". -/
theorem C4_off_domain_rejected (url r : String)
    (h : clean_url "https://www.innwhy.com/pr-news/" url = some r) :
    (urlsplitM [] r.data).netloc ≠ [] ∧
      strIn innwhy (urlsplitM [] r.data).netloc = true :=
  clean_url_accepted "https://www.innwhy.com/pr-news/" url r h

/-- Instantiation of `C4_off_domain_rejected` at an accepted on-domain URL. -/
theorem C4_off_domain_rejected_witness :
    (urlsplitM [] ("https://www.innwhy.com/a" : String).data).netloc ≠ [] ∧
      strIn innwhy (urlsplitM [] ("https://www.innwhy.com/a" : String).data).netloc
        = true :=
  C4_off_domain_rejected "https://www.innwhy.com/a" "https://www.innwhy.com/a"
    (by decide)

/-- C4 counterexample: the claim "every URL whose host is not innwhy.com is
rejected" is false — `https://innwhy.com.evil.example/x` has host
`innwhy.com.evil.example` (neither `innwhy.com` nor one of its subdomains),
yet `clean_url` accepts it, because the guard is `"innwhy.com" in netloc`. -/
theorem C4_off_domain_counterexample :
    clean_url "https://www.innwhy.com/pr-news/" "https://innwhy.com.evil.example/x" =
      some "https://innwhy.com.evil.example/x"
  ∧ (urlsplitM [] ("https://innwhy.com.evil.example/x" : String).data).netloc =
      "innwhy.com.evil.example".data
  ∧ ("innwhy.com.evil.example" : String) ≠ "innwhy.com"
  ∧ pfxB ".innwhy.com".data.reverse "innwhy.com.evil.example".data.reverse = false := by
  refine ⟨by decide, by decide, by decide, by decide⟩

/-- C5 (amended): `clean_url` is idempotent on every successfully normalized
URL `r` that is absolute (`http(s)://`) and is a fixed point of the textual
clean-up pass — in particular whenever `r` does not end in a residual
`,YYYY-MM-DD` artifact.  (Without that proviso idempotence fails, see the
counterexample.) -/
theorem C5_clean_url_idempotent (base u r : String)
    (h : clean_url base u = some r)
    (htc : textClean r = r)
    (hhttp : startsWithHttp r = true) :
    clean_url base r = some r := by
  have hg := clean_url_accepted base u r h
  have hne : r ≠ "" := by
    intro he; rw [he] at hhttp; exact absurd hhttp (by decide)
  simp only [clean_url, hne, if_false, htc, hhttp, if_true]
  rw [cleanGuard, if_pos hg]

/-- Instantiation of `C5_clean_url_idempotent` at a concrete URL. -/
theorem C5_clean_url_idempotent_witness :
    clean_url "https://www.innwhy.com/pr-news/" "https://www.innwhy.com/a" =
      some "https://www.innwhy.com/a" :=
  C5_clean_url_idempotent "https://www.innwhy.com/pr-news/"
    "https://www.innwhy.com/a" "https://www.innwhy.com/a"
    (by decide) (by decide) (by decide)

/-- C5 counterexample: idempotence fails as stated.  The input
`https://www.innwhy.com/a,2021-01-01,2022-02-02` normalizes successfully to
`https://www.innwhy.com/a,2021-01-01` (the `$`-anchored `re.sub` removes one
trailing `,date` artifact), but normalizing that output again removes a second
artifact, so `clean_url (clean_url u) ≠ clean_url u`. -/
theorem C5_idempotence_counterexample :
    clean_url "https://www.innwhy.com/pr-news/"
        "https://www.innwhy.com/a,2021-01-01,2022-02-02" =
      some "https://www.innwhy.com/a,2021-01-01"
  ∧ clean_url "https://www.innwhy.com/pr-news/"
        "https://www.innwhy.com/a,2021-01-01" =
      some "https://www.innwhy.com/a"
  ∧ ("https://www.innwhy.com/a,2021-01-01" : String) ≠ "https://www.innwhy.com/a" := by
  refine ⟨by decide, by decide, by decide⟩

/-! ### C10: leading slashes and base-relative resolution -/

lemma dropWhile_eq_self_of (p : Char → Bool) (l : List Char)
    (h : ∀ c ∈ l, p c = false) : l.dropWhile p = l := by
  cases l with
  | nil => rfl
  | cons c cs =>
    rw [List.dropWhile_cons, h c (by simp)]
    simp

lemma strip2_id (p : Char → Bool) (l : List Char) (h : ∀ c ∈ l, p c = false) :
    ((l.dropWhile p).reverse.dropWhile p).reverse = l := by
  rw [dropWhile_eq_self_of p l h,
    dropWhile_eq_self_of p l.reverse (fun c hc => h c (by simpa using hc)),
    List.reverse_reverse]

lemma pyStrip_id (s : String) (h : ∀ c ∈ s.data, c.isWhitespace = false) :
    pyStrip s = s := by
  rw [pyStrip, strip2_id _ _ h, mkData]

lemma pyStripComma_id (s : String) (h : (',') ∉ s.data) : pyStripComma s = s := by
  rw [pyStripComma, strip2_id, mkData]
  intro c hc
  simp only [decide_eq_false_iff_not]
  intro he
  exact h (he ▸ hc)

lemma replaceBackslash_id (s : String) (h : ∀ c ∈ s.data, ¬(c = '\\')) :
    replaceBackslash s = s := by
  rw [replaceBackslash]
  have h2 : s.data.map (fun c => if c = '\\' then '/' else c) = s.data := by
    conv_rhs => rw [← List.map_id s.data]
    exact List.map_congr_left (fun a ha => by rw [if_neg (h a ha)]; rfl)
  rw [h2, mkData]

lemma commaRun_zero (l : List Char) (h : (',') ∉ l) : commaRun l = 0 := by
  cases l with
  | nil => rfl
  | cons c cs =>
    rw [commaRun, if_neg]
    intro he
    exact h (by rw [← he]; exact List.mem_cons_self _ _)

lemma dateSuffixSub_id (s : String) (h : (',') ∉ s.data) : dateSuffixSub s = s := by
  have h2 : dateSuffixDropLen s.data.reverse = 0 := by
    have hrev : (',') ∉ s.data.reverse := by simpa using h
    unfold dateSuffixDropLen
    split
    next a b x1 c d x2 e f g hh rest heq =>
      have hrest : (',') ∉ rest := by
        intro hm
        apply hrev
        rw [heq]
        simp [hm]
      simp [commaRun_zero rest hrest]
    next => rfl
  rw [dateSuffixSub, h2, List.drop_zero, List.reverse_reverse, mkData]

lemma textClean_id (s : String) (hws : ∀ c ∈ s.data, c.isWhitespace = false)
    (hbs : ∀ c ∈ s.data, ¬(c = '\\')) (hcm : (',') ∉ s.data) :
    textClean s = s := by
  rw [textClean, pyStrip_id s hws, replaceBackslash_id s hbs, pyStripComma_id s hcm,
    dateSuffixSub_id s hcm]

lemma pfxB_subset (p l : List Char) (h : pfxB p l = true) : ∀ c ∈ p, c ∈ l := by
  induction p generalizing l with
  | nil => simp
  | cons a as ih =>
    cases l with
    | nil => simp [pfxB] at h
    | cons b bs =>
      rw [pfxB] at h
      by_cases hab : a = b
      · subst hab
        rw [if_pos rfl] at h
        intro c hc
        rcases List.mem_cons.mp hc with rfl | hc2
        · exact List.mem_cons_self _ _
        · exact List.mem_cons_of_mem _ (ih bs h c hc2)
      · rw [if_neg hab] at h
        cases h

lemma alpha_not_ws (c : Char) (h : c.isAlpha = true) : c.isWhitespace = false := by
  by_contra hw
  rw [Bool.not_eq_false] at hw
  have h2 : ((c = ' ' ∨ c = '\t') ∨ c = '\r') ∨ c = '\n' := by
    simpa [Char.isWhitespace] using hw
  rcases h2 with ((h1 | h1) | h1) | h1 <;> subst h1 <;> exact absurd h (by decide)

lemma alpha_ne (c : Char) (h : c.isAlpha = true) (d : Char) (hd : d.isAlpha = false) :
    ¬(c = d) := by
  intro he
  rw [he, hd] at h
  exact Bool.noConfusion h

lemma startsWithHttp_false (s : String)
    (h : ∀ c ∈ s.data, c.isAlpha = true ∨ c = '/') :
    startsWithHttp s = false := by
  have key : ∀ pat : List Char, (':') ∈ pat → pfxB pat s.data = false := by
    intro pat hpat
    by_contra hb
    rw [Bool.not_eq_false] at hb
    have hmem := pfxB_subset _ _ hb ':' hpat
    rcases h ':' hmem with hx | hx
    · exact absurd hx (by decide)
    · exact absurd hx (by decide)
  rw [startsWithHttp, key _ (by decide), key _ (by decide)]
  rfl

lemma pyLstripSlash_eval (k : Nat) (c0 : Char) (cs : List Char) (hc0 : ¬(c0 = '/')) :
    pyLstripSlash (String.mk (List.replicate k '/' ++ (c0 :: cs))) =
      String.mk (c0 :: cs) := by
  rw [pyLstripSlash]
  congr 1
  induction k with
  | zero =>
    rw [List.replicate_zero, List.nil_append, List.dropWhile_cons]
    simp [hc0]
  | succ n ih =>
    rw [List.replicate_succ, List.cons_append, List.dropWhile_cons]
    simpa using ih

lemma splitFirst_none (d : Char) (l : List Char) (h : d ∉ l) :
    splitFirst d l = none := by
  induction l with
  | nil => rfl
  | cons c cs ih =>
    rw [splitFirst, if_neg (fun he => h (by rw [← he]; exact List.mem_cons_self _ _)),
      ih (fun hm => h (List.mem_cons_of_mem _ hm))]

lemma stripUnsafe_id (l : List Char)
    (h : ∀ c ∈ l, ¬(c = '\t' ∨ c = '\r' ∨ c = '\n')) : stripUnsafe l = l :=
  List.filter_eq_self.mpr (fun a ha => by simpa using h a ha)

lemma splitOnSlash_no (l : List Char) (h : ('/') ∉ l) : splitOnSlash l = [l] := by
  induction l with
  | nil => rfl
  | cons c cs ih =>
    have hne : ¬(c = '/') := fun he => h (by rw [← he]; exact List.mem_cons_self _ _)
    rw [splitOnSlash, ih (fun hm => h (List.mem_cons_of_mem _ hm))]
    simp [hne]

lemma schemeSplitOr_none (dflt u : List Char) (h : splitFirst ':' u = none) :
    schemeSplitOr dflt u = (dflt, u) := by
  rw [schemeSplitOr, splitScheme, h]

lemma netlocSplit_nopfx (rest : List Char) (h : pfxB ['/', '/'] rest = false) :
    netlocSplit rest = ([], rest) := by
  rw [netlocSplit, h]
  simp

lemma fragSplit_none (u : List Char) (h : splitFirst '#' u = none) :
    fragSplit u = (u, []) := by
  rw [fragSplit, h]

lemma querySplit_none (u : List Char) (h : splitFirst '?' u = none) :
    querySplit u = (u, []) := by
  rw [querySplit, h]

lemma splitParams_plain (p : List Char) (h1 : ('/') ∉ p)
    (h2 : splitFirst ';' p = none) : splitParams p = (p, []) := by
  rw [splitParams, if_neg h1, h2]

/-- `urlparse` of a plain all-letters relative reference against default
scheme `https`. -/
lemma urlparse_plain (p : String) (hp : p.data ≠ [])
    (halpha : ∀ c ∈ p.data, c.isAlpha = true) :
    urlparseM "https".data p.data = ⟨"https".data, [], p.data, [], [], []⟩ := by
  have hnc : (':') ∉ p.data := fun hm => absurd (halpha ':' hm) (by decide)
  have hslash : ('/') ∉ p.data := fun hm => absurd (halpha '/' hm) (by decide)
  have hhash : ('#') ∉ p.data := fun hm => absurd (halpha '#' hm) (by decide)
  have hq : ('?') ∉ p.data := fun hm => absurd (halpha '?' hm) (by decide)
  have hsemi : (';') ∉ p.data := fun hm => absurd (halpha ';' hm) (by decide)
  have hunsafe : ∀ c ∈ p.data, ¬(c = '\t' ∨ c = '\r' ∨ c = '\n') := by
    intro c hc
    have hca := halpha c hc
    rintro (h1 | h1 | h1) <;> rw [h1] at hca <;> exact absurd hca (by decide)
  obtain ⟨c0, cs, hpd⟩ : ∃ c0 cs, p.data = c0 :: cs := by
    cases hpdd : p.data with
    | nil => exact absurd hpdd hp
    | cons a b => exact ⟨a, b, rfl⟩
  have hc0 : ¬(c0 = '/') := by
    intro he
    exact hslash (by rw [hpd, ← he]; exact List.mem_cons_self _ _)
  have hpfx : pfxB ['/', '/'] p.data = false := by
    rw [hpd, pfxB, if_neg (fun he => hc0 he.symm)]
  simp only [urlparseM, urlsplitM, stripUnsafe_id p.data hunsafe,
    schemeSplitOr_none "https".data p.data (splitFirst_none ':' p.data hnc),
    netlocSplit_nopfx p.data hpfx,
    fragSplit_none p.data (splitFirst_none '#' p.data hhash),
    querySplit_none p.data (splitFirst_none '?' p.data hq),
    splitParams_plain p.data hslash (splitFirst_none ';' p.data hsemi)]

lemma foldl_resolve_app : ∀ (l : List (List Char)),
    (∀ s ∈ l, ¬(s = ['.', '.']) ∧ ¬(s = ['.'])) →
    ∀ acc, l.foldl (fun acc seg => if seg = ['.', '.'] then acc.dropLast
      else if seg = ['.'] then acc else acc ++ [seg]) acc = acc ++ l := by
  intro l
  induction l with
  | nil => intro _ acc; simp
  | cons x xs ih =>
    intro h acc
    rw [List.foldl_cons, if_neg (h x (by simp)).1, if_neg (h x (by simp)).2,
      ih (fun s hs => h s (by simp [hs])) (acc ++ [x])]
    simp

lemma resolveSegs_noDots (l : List (List Char))
    (h : ∀ s ∈ l, ¬(s = ['.', '.']) ∧ ¬(s = ['.'])) :
    resolveSegs l = l := by
  simp only [resolveSegs]
  rw [foldl_resolve_app l h [], List.nil_append]
  cases hl : l.getLast? with
  | none => rfl
  | some seg =>
    have hx : seg ∈ l.getLast? := by rw [hl]; rfl
    obtain ⟨hne, heq⟩ := List.mem_getLast?_eq_getLast hx
    have hmem : seg ∈ l := by rw [heq]; exact List.getLast_mem hne
    show (if seg = ['.', '.'] ∨ seg = ['.'] then l ++ [[]] else l) = l
    rw [if_neg]
    rintro (he | he)
    · exact (h seg hmem).1 he
    · exact (h seg hmem).2 he

/-- `urljoin` of the production base URL with a plain all-letters relative
path: the path is resolved under `/pr-news/`, not at the domain root. -/
lemma urljoin_plain (p : String) (hp : p.data ≠ [])
    (halpha : ∀ c ∈ p.data, c.isAlpha = true) :
    urljoinM "https://www.innwhy.com/pr-news/" p =
      "https://www.innwhy.com/pr-news/" ++ p := by
  have hpne : p ≠ "" := by
    intro he
    apply hp
    rw [he]
  have hslash : ('/') ∉ p.data := fun hm => absurd (halpha '/' hm) (by decide)
  have hb : urlparseM [] ("https://www.innwhy.com/pr-news/" : String).data =
      ⟨"https".data, "www.innwhy.com".data, "/pr-news/".data, [], [], []⟩ := by
    decide
  have hr := urlparse_plain p hp halpha
  have hdot1 : ¬(p.data = ['.']) := by
    intro he
    have := halpha '.' (by rw [he]; exact List.mem_cons_self _ _)
    exact absurd this (by decide)
  have hdot2 : ¬(p.data = ['.', '.']) := by
    intro he
    have := halpha '.' (by rw [he]; exact List.mem_cons_self _ _)
    exact absurd this (by decide)
  obtain ⟨c0, cs, hpd⟩ : ∃ c0 cs, p.data = c0 :: cs := by
    cases hpdd : p.data with
    | nil => exact absurd hpdd hp
    | cons a b => exact ⟨a, b, rfl⟩
  have hc0 : ¬(c0 = '/') := by
    intro he
    exact hslash (by rw [hpd, ← he]; exact List.mem_cons_self _ _)
  have hpfx1 : pfxB ['/'] p.data = false := by
    rw [hpd, pfxB, if_neg (fun he => hc0 he.symm)]
  have hsplitp : splitOnSlash p.data = [p.data] := splitOnSlash_no p.data hslash
  have hrel : (String.mk "https".data) ∈ usesRelative := by decide
  have hnl : (String.mk "https".data) ∈ usesNetloc := by decide
  have hbne : ¬(("https://www.innwhy.com/pr-news/" : String) = "") := by decide
  have hfm : filterMiddle ([[], "pr-news".data, []] ++ [p.data]) =
      [[], "pr-news".data, p.data] := by
    rfl
  have hres : resolveSegs [[], "pr-news".data, p.data] =
      [[], "pr-news".data, p.data] := by
    apply resolveSegs_noDots
    intro s hs
    simp only [List.mem_cons, List.not_mem_nil, or_false] at hs
    rcases hs with rfl | rfl | rfl
    · exact ⟨by decide, by decide⟩
    · exact ⟨by decide, by decide⟩
    · exact ⟨hdot2, hdot1⟩
  have hjoin : joinSlash [[], "pr-news".data, p.data] =
      '/' :: ("pr-news".data ++ '/' :: p.data) := by rfl
  have hjr : joinResolve ("/pr-news/" : String).data p.data =
      '/' :: ("pr-news".data ++ '/' :: p.data) := by
    simp only [joinResolve, hpfx1]
    rw [show splitOnSlash ("/pr-news/" : String).data = [[], "pr-news".data, []]
      from by decide]
    rw [show delLastNonempty [[], "pr-news".data, []] = [[], "pr-news".data, []]
      from by decide]
    rw [hsplitp]
    simp only [Bool.false_eq_true, if_false]
    rw [hfm, hres, hjoin]
    rw [if_neg (by simp)]
  simp [urljoinM, hbne, hpne, hb, hr, hjr, hrel, hnl, hp]
  rfl

/-- The parsed netloc of the production base joined with any relative path is
the base host (the netloc scan never reaches the appended path). -/
lemma netloc_prnews (p : String) :
    (urlsplitM [] (("https://www.innwhy.com/pr-news/" : String) ++ p).data).netloc
      = "www.innwhy.com".data := by
  obtain ⟨pd⟩ := p
  rfl

/-- C10: in `clean_url`, an input that does not start with `http://` or
`https://` has all of its leading `'/'` characters stripped before being
joined with `base_url`, so a root-relative path resolves under the base URL's
full path, not the domain root: with base `https://www.innwhy.com/pr-news/`,
`/foo` (and any `'/'*<letters>` input) normalizes to
`https://www.innwhy.com/pr-news/foo`, not `https://www.innwhy.com/foo`. -/
theorem C10_leading_slashes_resolved (p : String) (k : Nat)
    (hp : p.data ≠ []) (halpha : ∀ c ∈ p.data, c.isAlpha = true) :
    clean_url "https://www.innwhy.com/pr-news/"
        (String.mk (List.replicate k '/' ++ p.data)) =
      some ("https://www.innwhy.com/pr-news/" ++ p)
  ∧ clean_url "https://www.innwhy.com/pr-news/" "/foo" =
      some "https://www.innwhy.com/pr-news/foo"
  ∧ ¬(clean_url "https://www.innwhy.com/pr-news/" "/foo" =
      some "https://www.innwhy.com/foo") := by
  refine ⟨?_, by decide, by decide⟩
  have hchars : ∀ c ∈ (String.mk (List.replicate k '/' ++ p.data)).data,
      c = '/' ∨ c.isAlpha = true := by
    intro c hc
    rcases List.mem_append.mp hc with hx | hx
    · exact Or.inl (List.eq_of_mem_replicate hx)
    · exact Or.inr (halpha c hx)
  have hne : String.mk (List.replicate k '/' ++ p.data) ≠ "" := by
    intro he
    have h2 : List.replicate k '/' ++ p.data = [] := congrArg String.data he
    exact hp (List.append_eq_nil.mp h2).2
  have htc : textClean (String.mk (List.replicate k '/' ++ p.data)) =
      String.mk (List.replicate k '/' ++ p.data) := by
    apply textClean_id
    · intro c hc
      rcases hchars c hc with rfl | hx
      · decide
      · exact alpha_not_ws c hx
    · intro c hc
      rcases hchars c hc with rfl | hx
      · decide
      · exact alpha_ne c hx '\\' (by decide)
    · intro hc
      rcases hchars ',' hc with he | hx
      · exact absurd he (by decide)
      · exact absurd hx (by decide)
  have hsw : startsWithHttp (String.mk (List.replicate k '/' ++ p.data)) = false := by
    apply startsWithHttp_false
    intro c hc
    rcases hchars c hc with rfl | hx
    · exact Or.inr rfl
    · exact Or.inl hx
  obtain ⟨c0, cs, hpd⟩ : ∃ c0 cs, p.data = c0 :: cs := by
    cases hpdd : p.data with
    | nil => exact absurd hpdd hp
    | cons a b => exact ⟨a, b, rfl⟩
  have hc0 : ¬(c0 = '/') := by
    have := halpha c0 (by rw [hpd]; exact List.mem_cons_self _ _)
    exact alpha_ne c0 this '/' (by decide)
  have hlstrip : pyLstripSlash (String.mk (List.replicate k '/' ++ p.data)) = p := by
    rw [hpd, pyLstripSlash_eval k c0 cs hc0, ← hpd, mkData]
  have hjoin := urljoin_plain p hp halpha
  have hnet := netloc_prnews p
  simp only [clean_url, hne, if_false, htc, hsw, Bool.false_eq_true, if_true, if_false,
    hlstrip, hjoin]
  rw [cleanGuard, if_pos]
  constructor
  · rw [hnet]
    decide
  · rw [hnet]
    decide

/-- Instantiation of `C10_leading_slashes_resolved` at `/foo`. -/
theorem C10_leading_slashes_resolved_witness :
    clean_url "https://www.innwhy.com/pr-news/"
        (String.mk (List.replicate 1 '/' ++ ("foo" : String).data)) =
      some ("https://www.innwhy.com/pr-news/" ++ "foo") :=
  (C10_leading_slashes_resolved "foo" 1 (by decide) (by decide)).1

/-! ### Name/title parsing (`extract_prefix`, `parse_name`, `add_prefix`)

`src/KBank.py` lines 200-317 and `src/Kbank/KBank.py` lines 215-298. -/

/-- Python `sorted(titles.keys(), key=len, reverse=True)`: stable descending
insertion sort on the character count (`len` counts code points). -/
def insertByLenDesc (x : String) : List String → List String
  | [] => [x]
  | y :: ys => if y.length ≤ x.length then x :: y :: ys else y :: insertByLenDesc x ys

/-- Stable length-descending sort (Python's `sorted` is stable, and two
distinct titles of equal length are never both prefixes of one name, so
stability is inessential to behavior). -/
def sortByLenDesc (l : List String) : List String := l.foldr insertByLenDesc []

/-- Python `str.lstrip()`. -/
def pyLstripWs (s : String) : String := String.mk (s.data.dropWhile Char.isWhitespace)

/-- `" ".join(parts)`. -/
def joinSpace : List String → String
  | [] => ""
  | [x] => x
  | x :: y :: t => x ++ " " ++ joinSpace (y :: t)

/-- `titles[title]` dict lookup. -/
def lookupTitle (l : List (String × String)) (k : String) : String :=
  match l.find? (fun q => q.1 = k) with
  | some q => q.2
  | none => ""

/-- The `titles` dict of `KasikornSeleniumScraper.extract_prefix`
(`src/KBank.py` lines 217-240), in insertion order. -/
def titlesPrefix1 : List (String × String) :=
  [("นาย", "Mr"), ("นาง", "Mrs"), ("นางสาว", "Miss"), ("ดร.", "Dr"), ("ศ.", "Prof"),
   ("รศ.", "Assoc Prof"), ("ผศ.", "Asst Prof"), ("ศ.ดร.", "Prof Dr"),
   ("รศ.ดร.", "Assoc Prof Dr"), ("ผศ.ดร.", "Asst Prof Dr"),
   ("Mr.", "Mr"), ("Mrs.", "Mrs"), ("Miss", "Ms"), ("Dr.", "Dr"), ("Prof.", "Prof"),
   ("Professor", "Prof"), ("Assoc. Prof.", "Assoc Prof"), ("Asst. Prof.", "Asst Prof"),
   ("Prof. Dr.", "Prof Dr")]

/-- The title keys of `KasikornSeleniumScraper.parse_name`
(`src/KBank.py` lines 269-294; the dict values are all `""`). -/
def titles1ParseKeys : List String :=
  ["นาย", "นาง", "นางสาว", "ดร.", "ศ.", "รศ.", "ผศ.", "ศ.ดร.", "รศ.ดร.", "ผศ.ดร.",
   "Mr.", "Mrs.", "Miss", "Dr.", "Prof.", "Professor", "Assoc. Prof.", "Asst. Prof.",
   "Prof. Dr.", "Assoc. Prof. Dr.", "Asst. Prof. Dr."]

/-- `KasikornSeleniumScraper.extract_prefix` (`src/KBank.py` lines 200-251):
longest title first, mapping to the English abbreviation; `""` if no title
matches. -/
def extract_prefix (full_name : String) : String :=
  if full_name = "" then ""
  else
    let fn := pyStrip full_name
    match (sortByLenDesc (titlesPrefix1.map Prod.fst)).find?
        (fun t => pfxB t.data fn.data) with
    | some t => lookupTitle titlesPrefix1 t
    | none => ""

/-- `KasikornSeleniumScraper.parse_name` of `src/KBank.py` (lines 253-317).
`none` models the uncaught `IndexError` of `name_parts[0]` when the stripped
name is a recognized title and nothing else; a Python `None` argument and `""`
both return `("", "")`. -/
def parse_name1 (full_name : Option String) : Option (String × String) :=
  match full_name with
  | none => some ("", "")
  | some fn0 =>
    if fn0 = "" then some ("", "")
    else
      let fn := pyStrip fn0
      let nwt := match (sortByLenDesc titles1ParseKeys).find?
          (fun t => pfxB t.data fn.data) with
        | some t => pyLstripWs (String.mk (fn.data.drop t.data.length))
        | none => fn
      match pySplitWs nwt with
      | [] => none
      | [x] => some (x, "")
      | x :: rest => some (x, joinSpace rest)

/-- The `thai_titles` list of `KasikornSeleniumScraper.parse_name` in
`src/Kbank/KBank.py` (line 232) — iterated in this order, *not* sorted by
length. -/
def thai_titles2 : List String :=
  ["นาย", "นาง", "นางสาว", "ดร.", "ศ.", "รศ.", "ผศ.", "ศ.ดร.", "รศ.ดร.", "ผศ.ดร."]

/-- `KasikornSeleniumScraper.parse_name` of `src/Kbank/KBank.py`
(lines 215-252): first title in list order wins; `none` models the uncaught
`IndexError` on a title-only name. -/
def parse_name2 (full_name : Option String) : Option (String × String) :=
  match full_name with
  | none => some ("", "")
  | some fn0 =>
    if fn0 = "" then some ("", "")
    else
      let fn := pyStrip fn0
      let nwt := match thai_titles2.find? (fun t => pfxB t.data fn.data) with
        | some t => pyStrip (String.mk (fn.data.drop t.data.length))
        | none => fn
      match pySplitWs nwt with
      | [] => none
      | [x] => some (x, "")
      | x :: rest => some (x, joinSpace rest)

/-- The `thai_to_eng_prefixes` dict of `KasikornSeleniumScraper.add_prefix`
(`src/Kbank/KBank.py` lines 271-282), in insertion order. -/
def thaiToEng : List (String × String) :=
  [("นาย", "Mr."), ("นาง", "Mrs."), ("นางสาว", "Miss"), ("ดร.", "Dr."), ("ศ.", "Prof."),
   ("รศ.", "Assoc. Prof."), ("ผศ.", "Asst. Prof."), ("ศ.ดร.", "Prof. Dr."),
   ("รศ.ดร.", "Assoc. Prof. Dr."), ("ผศ.ดร.", "Asst. Prof. Dr.")]

/-- `KasikornSeleniumScraper.add_prefix` (`src/Kbank/KBank.py` lines 254-298):
returns `(prefix, prefixed_name, clean_name)`; iterates the dict in insertion
order and defaults to `"Mr."`. -/
def add_prefix (full_name : String) : String × String × String :=
  if full_name = "" then ("", "", "")
  else
    let fn := pyStrip full_name
    let pc := match thaiToEng.find? (fun q => pfxB q.1.data fn.data) with
      | some q => (q.2, pyStrip (String.mk (fn.data.drop q.1.data.length)))
      | none => ("Mr.", fn)
    (pc.1, pc.1 ++ " " ++ pc.2, pc.2)

/-- C2 (code bug): longest-title-first fails in `src/Kbank/KBank.py`.  Its
`parse_name` and `add_prefix` iterate the title lexicon in insertion order, so
on the file's own sample name "นางสาวขัตติยา อินทรวิชัย" the shorter title
"นาง" matches before the compound "นางสาว", leaving "สาว" glued to the first
name (and prefix "Mrs." instead of "Miss") — contradicting that file's own
`simulate_manual_data_collection` fixture, the spec, and the sibling variant
`src/KBank.py`, whose sorted-by-length `parse_name`/`extract_prefix` handle
the same input correctly; "ศ.ดร." is likewise mis-split as "ศ." plus
leftover. -/
theorem C2_longest_title_first_violated :
    parse_name2 (some "นางสาวขัตติยา อินทรวิชัย") = some ("สาวขัตติยา", "อินทรวิชัย")
  ∧ add_prefix "นางสาวขัตติยา อินทรวิชัย" =
      ("Mrs.", "Mrs. สาวขัตติยา อินทรวิชัย", "สาวขัตติยา อินทรวิชัย")
  ∧ add_prefix "ศ.ดร.สมชาย ใจดี" = ("Prof.", "Prof. ดร.สมชาย ใจดี", "ดร.สมชาย ใจดี")
  ∧ parse_name1 (some "นางสาวขัตติยา อินทรวิชัย") = some ("ขัตติยา", "อินทรวิชัย")
  ∧ parse_name1 (some "ศ.ดร.สมชาย ใจดี") = some ("สมชาย", "ใจดี")
  ∧ extract_prefix "นางสาวขัตติยา อินทรวิชัย" = "Miss"
  ∧ extract_prefix "ศ.ดร.สมชาย ใจดี" = "Prof Dr" := by
  refine ⟨by decide, by decide, by decide, by decide, by decide, by decide, by decide⟩

/-- C9 (code bug): `parse_name` does *not* always return a pair.  On a string
that is exactly a recognized title ("นาย"), both variants strip the title,
split the empty remainder into zero tokens, skip the `len == 1` branch, and
evaluate `name_parts[0]` on an empty list — an uncaught `IndexError`
(modelled as `none`).  Empty and missing input do return `("", "")`, and an
ordinary name parses as documented. -/
theorem C9_parse_name_title_only_crash :
    parse_name1 (some "นาย") = none
  ∧ parse_name2 (some "นาย") = none
  ∧ parse_name1 (some "") = some ("", "")
  ∧ parse_name2 (some "") = some ("", "")
  ∧ parse_name1 none = some ("", "")
  ∧ parse_name2 none = some ("", "")
  ∧ parse_name1 (some "นายบัณฑูร ล่ำซำ") = some ("บัณฑูร", "ล่ำซำ")
  ∧ parse_name2 (some "นายบัณฑูร ล่ำซำ") = some ("บัณฑูร", "ล่ำซำ") := by
  refine ⟨by decide, by decide, by decide, by decide, by decide, by decide,
    by decide, by decide⟩

/-! ### Structural extraction: `WebScraper.parse_page` (`src/main.py` 285-392)

BeautifulSoup queries are external collaborators: a soup is modelled by its
`select` results per selector string, an article container by its
`select_one` results, an element by its stripped text and `href` attribute.
`fetch_article_content`, the main-file `extract_date` (which consults
`dateutil` and the system clock) and `datetime.now()` are passed in as
opaque functions — the claims about `parse_page` concern only its iteration
and filtering logic.  Nothing inside the per-article `try` raises in this
abstraction, so the `except` path adds no cases. -/

structure TElem where
  text : String
  href : Option String

structure ArticleC where
  titleSel : String → Option TElem
  dateSel : String → Option TElem

structure SoupM where
  sel : String → List ArticleC

/-- `article_selectors` (lines 308-316). -/
def article_selectors : List String :=
  ["article", ".post", ".blog-post", ".news-item", ".item", ".entry", ".card"]

/-- `title_selectors` (lines 323-331). -/
def title_selectors : List String :=
  ["h2.entry-title a", ".post-title a", "h2 a", ".entry-header h2 a", "h3 a",
   ".title a", ".heading a"]

/-- `date_selectors` (lines 352-358). -/
def date_selectors : List String :=
  ["time", ".published", ".post-date", ".entry-date", ".date", ".meta-date"]

structure ArticleRec where
  Headline : String
  Link : String
  Date : String
  Content : String
deriving DecidableEq, Repr

/-- The title loop: first selector whose `select_one` finds an element. -/
def findFirst (f : String → Option TElem) : List String → Option TElem
  | [] => none
  | s :: rest =>
    match f s with
    | some e => some e
    | none => findFirst f rest

/-- The date loop: first selector whose element yields a truthy
`extract_date`; `""` stands for the falsy end state (`None` or `""`). -/
def findDate (extDate : TElem → String) (f : String → Option TElem) :
    List String → String
  | [] => ""
  | s :: rest =>
    match f s with
    | some e => if extDate e = "" then findDate extDate f rest else extDate e
    | none => findDate extDate f rest

/-- The body of the inner `for article in soup.select(selector)` loop for one
selector: skip when no title element, skip when the cleaned link is rejected,
date with `now` fallback, content fetched from the link. -/
def parsePerSelector (fetchContent : String → String) (extDate : TElem → String)
    (nowStr : String) (base : String) (soup : SoupM) (selector : String) :
    List ArticleRec :=
  (soup.sel selector).filterMap (fun article =>
    match findFirst article.titleSel title_selectors with
    | none => none
    | some t =>
      match clean_url base ((t.href).getD "") with
      | none => none
      | some link =>
        let d := findDate extDate article.dateSel date_selectors
        some ⟨t.text, link, if d = "" then nowStr else d, fetchContent link⟩)

/-- `WebScraper.parse_page` (`src/main.py` lines 285-392): every selector in
`article_selectors` is processed, its records appended in order. -/
def parse_page (fetchContent : String → String) (extDate : TElem → String)
    (nowStr : String) (base : String) (soup : SoupM) : List ArticleRec :=
  (article_selectors.map (parsePerSelector fetchContent extDate nowStr base soup)).flatten

/-- A container matched by both the `"article"` and `".post"` selectors, with
a valid title link. -/
def artC3 : ArticleC :=
  ⟨fun s => if s = "h2.entry-title a" then
      some ⟨"T", some "https://www.innwhy.com/x"⟩ else none,
   fun _ => none⟩

/-- A page on which the first strategy (`"article"`) locates the container and
the second strategy (`".post"`) locates the same container. -/
def soupC3 : SoupM := ⟨fun s => if s = "article" ∨ s = ".post" then [artC3] else []⟩

/-- C3 counterexample: extraction is not first-match-wins at the strategy
level in `parse_page`.  On `soupC3` the first selector `"article"` locates one
container, yet the later selector `".post"` contributes a second record for
the same single container: the page yields two identical records, refuting
both "later strategies contribute no records" and "a single container yields
at most one record". -/
theorem C3_first_match_wins_counterexample :
    (soupC3.sel "article").length = 1
  ∧ parse_page (fun _ => "c") (fun _ => "") "2025-01-01"
      "https://www.innwhy.com/pr-news/" soupC3 =
      [⟨"T", "https://www.innwhy.com/x", "2025-01-01", "c"⟩,
       ⟨"T", "https://www.innwhy.com/x", "2025-01-01", "c"⟩] := by
  refine ⟨rfl, by decide⟩

/-- A container whose matched title element has empty text but a valid link. -/
def artC8 : ArticleC :=
  ⟨fun s => if s = "h2.entry-title a" then
      some ⟨"", some "https://www.innwhy.com/y"⟩ else none,
   fun _ => none⟩

/-- A page with a single such container under the `"article"` selector. -/
def soupC8 : SoupM := ⟨fun s => if s = "article" then [artC8] else []⟩

/-- C8 counterexample: `parse_page` does **not** discard a container whose
extracted headline is empty — it only discards containers with no title
*element* or no valid link.  A title element with empty text and a valid
`href` produces an `ArticleRec` with an empty `Headline`. -/
theorem C8_empty_headline_counterexample :
    parse_page (fun _ => "c") (fun _ => "") "2025-01-01"
      "https://www.innwhy.com/pr-news/" soupC8 =
      [⟨"", "https://www.innwhy.com/y", "2025-01-01", "c"⟩] := by
  decide

/-! ### `KasikornSeleniumScraper.scrape_executives`

`src/KBank.py` lines 319-542 (variant 1) and `src/Kbank/KBank.py` lines
335-663 (variant 2).  BeautifulSoup containers are modelled by their query
results: a table row by its `th`-presence flag, `td` texts and optional `img`
`src`; a div-layout item by its three `select_one` texts and optional image.
`download_image` (network + filesystem) and the Selenium image search are
opaque function parameters; `drv` is `self.driver`'s truthiness.  The
per-row/per-item `try` catches the `IndexError` that `parse_name` can raise
(modelled by its `none`), skipping that row. -/

/-- The shared append-with-limit loop shape: append the record, increment
`exec_count`, and `break` as soon as `limit ≤ exec_count`. -/
def collectLimit {α β : Type} (f : α → Option β) (limit : Nat) :
    List α → Nat → List β × Nat
  | [], cnt => ([], cnt)
  | x :: xs, cnt =>
    match f x with
    | none => collectLimit f limit xs cnt
    | some rec =>
      if limit ≤ cnt + 1 then ([rec], cnt + 1)
      else
        let p := collectLimit f limit xs (cnt + 1)
        (rec :: p.1, p.2)

structure Row where
  th : Bool
  tds : List String
  img : Option String

structure Item where
  name? : Option String
  pos? : Option String
  date? : Option String
  img : Option String

/-- A located container: a `<table>` (by tag check `table.name == "table"`)
or a div-based layout with its primary and broader (`"div"`) item queries. -/
inductive Container where
  | table (rows : List Row)
  | divBlock (items altItems : List Item)

structure Exec1 where
  Prefixed_Name : String
  Full_Name : String
  First_Name : String
  Surname : String
  Position : String
  Start_Date : String
  End_Date : String
deriving DecidableEq, Repr

/-- One data row of the variant-1 table branch (lines 357-413): skip header
rows and rows with fewer than two columns; choose the date columns by column
count; skip empty names; `none` also models the caught per-row exception. -/
def row1Rec (r : Row) : Option Exec1 :=
  if r.th then none
  else
    match r.tds with
    | [] => none
    | [_] => none
    | c0 :: c1 :: rest =>
      let sd : String × String :=
        match rest with
        | [] => ("", "")
        | [d1] => (extract_date1 d1, "")
        | d1 :: d2 :: _ => (extract_date1 d1, extract_date1 d2)
      if c0 = "" then none
      else
        match parse_name1 (some c0) with
        | none => none
        | some fs =>
          some ⟨ extract_prefix c0, c0, fs.1, fs.2, c1, sd.1, sd.2⟩

/-- One div-layout item of variant 1 (lines 425-466). -/
def item1Rec (it : Item) : Option Exec1 :=
  let full_name := (it.name?).getD ""
  let position := (it.pos?).getD ""
  let start_date := match it.date? with
    | some d => extract_date1 d
    | none => ""
  if full_name = "" then none
  else
    match parse_name1 (some full_name) with
    | none => none
    | some fs =>
      some ⟨ extract_prefix full_name, full_name, fs.1, fs.2, position, start_date, ""⟩

/-- The `for table in executive_tables` loop of variant 1, threading
`exec_count` and breaking at the limit. -/
def containers1Go (limit : Nat) : List Container → Nat → List Exec1 × Nat
  | [], cnt => ([], cnt)
  | c :: cs, cnt =>
    let p := match c with
      | .table rows => collectLimit row1Rec limit rows cnt
      | .divBlock items altItems =>
        collectLimit item1Rec limit (if items.isEmpty then altItems else items) cnt
    if limit ≤ p.2 then p
    else
      let q := containers1Go limit cs p.2
      (p.1 ++ q.1, q.2)

/-- The name/position guessing shared by both Selenium fallbacks: split the
(stripped) element text at the first newline, else at `':'`, else at `'-'`. -/
def fallbackSplit (t : String) : String × String :=
  match splitFirst '\n' t.data with
  | some (a, b) =>
    (pyStrip (String.mk a),
     pyStrip (String.mk (match splitFirst '\n' b with
       | some (c, _) => c
       | none => b)))
  | none =>
    match splitFirst ':' t.data with
    | some (a, b) => (pyStrip (String.mk a), pyStrip (String.mk b))
    | none =>
      match splitFirst '-' t.data with
      | some (a, b) => (pyStrip (String.mk a), pyStrip (String.mk b))
      | none => (t, "")

/-- One element of the variant-1 Selenium fallback (lines 480-534): split the
text at the first newline, else at `':'`, else at `'-'`; discard name guesses
with a token count outside `[1, 5]`. -/
def fallbackRec1 (txt : String) : Option Exec1 :=
  let t := pyStrip txt
  if t = "" ∨ t.data.length < 5 then none
  else
    let fp := fallbackSplit t
    if 5 < (pySplitWs fp.1).length ∨ (pySplitWs fp.1).length < 1 then none
    else
      match parse_name1 (some fp.1) with
      | none => none
      | some fs =>
        some ⟨ extract_prefix fp.1, fp.1, fs.1, fs.2, fp.2, "", ""⟩

/-- `KasikornSeleniumScraper.scrape_executives` of `src/KBank.py`
(lines 319-542), from the point where the page HTML has been fetched:
`primary`/`secondary` are the results of the two container `select` calls
(the second consulted only when the first is empty), `fallbackTexts` the
texts of the direct-Selenium fallback elements (consulted only when no
records were produced and a driver exists). -/
def scrape_executives1 (limit : Nat) (primary secondary : List Container)
    (drv : Bool) (fallbackTexts : List String) : List Exec1 :=
  let tables := if primary.isEmpty then secondary else primary
  let p := containers1Go limit tables 0
  if p.1.isEmpty ∧ drv = true then
    (collectLimit fallbackRec1 limit (fallbackTexts.take limit) 0).1
  else p.1

/-! #### Variant 2 (`src/Kbank/KBank.py`), with image handling -/

/-- The scraper's `base_url`. -/
def kbankBase : String := "https://www.kasikornbank.com/th/about/Pages/executives.aspx"

/-- `self.base_url.split('/')[0] + '//' + self.base_url.split('/')[2]`. -/
def kbankRoot : String :=
  String.mk ((splitOnSlash kbankBase.data).headD []) ++ "//" ++
    String.mk ((splitOnSlash kbankBase.data).getD 2 [])

/-- Relative image URLs are absolutized against the site root (lines 434-437);
the check is `startswith('http')`. -/
def absolutizeImg (img : String) : String :=
  if pfxB "http".data img.data then img
  else if pfxB ['/'] img.data then kbankRoot ++ img
  else kbankRoot ++ "/" ++ img

/-- Python `str.replace(a, b)` for single characters. -/
def charReplace (a b : Char) (s : String) : String :=
  String.mk (s.data.map (fun c => if c = a then b else c))

/-- The XPath query built from the first name in the image backfill pass
(line 559). -/
def xpathQuery (first : String) : String :=
  let q : String := String.mk ['\'']
  "//img[contains(@alt, " ++ q ++ first ++ q ++ ") or contains(@title, " ++
    q ++ first ++ q ++ ")]"

/-- Python `dates_text.split(" - ")` (split on the 3-character separator). -/
def splitDashGo : List Char → List Char → List (List Char)
  | [], acc => [acc.reverse]
  | c :: cs, acc =>
    if pfxB [' ', '-', ' '] (c :: cs) then acc.reverse :: splitDashGo (cs.drop 2) []
    else splitDashGo cs (c :: acc)
termination_by l _ => l.length
decreasing_by
  · simp only [List.length_cons, List.length_drop]
    omega
  · simp

/-- The date-range handling of the variant-2 div branch (lines 489-497):
split on `" - "`; exactly two parts give both dates, any other split count
leaves both empty; without the separator only the start date is parsed. -/
def item2Dates (dates_text : String) : String × String :=
  if strIn [' ', '-', ' '] dates_text.data then
    match splitDashGo dates_text.data [] with
    | [a, b] => (extract_date2 (String.mk a), extract_date2 (String.mk b))
    | _ => ("", "")
  else (extract_date2 dates_text, "")

structure Exec2 where
  Prefixed_Name : String
  Full_Name : String
  First_Name : String
  Surname : String
  Position : String
  Start_Date : String
  End_Date : String
  Image_URL : String
  Image_Path : String
deriving DecidableEq, Repr

/-- One data row of the variant-2 table branch (lines 389-462); `dl` is
`download_image`. -/
def row2Rec (dl : String → String → String) (r : Row) : Option Exec2 :=
  if r.th then none
  else
    match r.tds with
    | [] => none
    | [_] => none
    | c0 :: c1 :: rest =>
      let sd : String × String :=
        match rest with
        | [] => ("", "")
        | [d1] => (extract_date2 d1, "")
        | d1 :: d2 :: _ => (extract_date2 d1, extract_date2 d2)
      if c0 = "" then none
      else
        match parse_name2 (some c0) with
        | none => none
        | some fs =>
          let ap := add_prefix c0
          let iu := match r.img with
            | some src => if src = "" then "" else absolutizeImg src
            | none => ""
          let ip := if iu = "" then "" else dl iu ap.2.2
          some ⟨ap.2.1, c0, fs.1, fs.2, c1, sd.1, sd.2, iu, ip⟩

/-- One div-layout item of variant 2 (lines 473-543). -/
def item2Rec (dl : String → String → String) (it : Item) : Option Exec2 :=
  let full_name := (it.name?).getD ""
  let position := (it.pos?).getD ""
  let sd := item2Dates ((it.date?).getD "")
  if full_name = "" then none
  else
    match parse_name2 (some full_name) with
    | none => none
    | some fs =>
      let ap := add_prefix full_name
      let iu := match it.img with
        | some src => if src = "" then "" else absolutizeImg src
        | none => ""
      let ip := if iu = "" then "" else dl iu ap.2.2
      some ⟨ap.2.1, full_name, fs.1, fs.2, position, sd.1, sd.2, iu, ip⟩

/-- The `for table in executive_tables` loop of variant 2. -/
def containers2Go (dl : String → String → String) (limit : Nat) :
    List Container → Nat → List Exec2 × Nat
  | [], cnt => ([], cnt)
  | c :: cs, cnt =>
    let p := match c with
      | .table rows => collectLimit (row2Rec dl) limit rows cnt
      | .divBlock items altItems =>
        collectLimit (item2Rec dl) limit (if items.isEmpty then altItems else items) cnt
    if limit ≤ p.2 then p
    else
      let q := containers2Go dl limit cs p.2
      (p.1 ++ q.1, q.2)

/-- The image backfill pass (lines 549-574): for a record with a falsy image
URL or path, search the page by the first name and update only the two image
fields; `findImgs` models `driver.find_elements(By.XPATH, ...)` yielding the
`src` attributes.  `exec_data.get("prefix", "")` is `""` (no such key), so
`clean_name` is the stripped full name. -/
def backfill2 (dl : String → String → String) (findImgs : String → List String)
    (e : Exec2) : Exec2 :=
  if e.Image_URL = "" ∨ e.Image_Path = "" then
    if charReplace ' ' '+' e.Full_Name = "" then e
    else
      match findImgs (xpathQuery e.First_Name) with
      | [] => e
      | u :: _ =>
        if u = "" then e
        else
          Exec2.mk e.Prefixed_Name e.Full_Name e.First_Name e.Surname e.Position
            e.Start_Date e.End_Date u (dl u (pyStrip e.Full_Name))
  else e

/-- One element of the variant-2 Selenium fallback (lines 585-657): as in
variant 1, plus a per-element image (its `src`, when an `img` child exists). -/
def fallbackRec2 (dl : String → String → String) (el : String × Option String) :
    Option Exec2 :=
  let t := pyStrip el.1
  if t = "" ∨ t.data.length < 5 then none
  else
    let fp := fallbackSplit t
    if 5 < (pySplitWs fp.1).length ∨ (pySplitWs fp.1).length < 1 then none
    else
      match parse_name2 (some fp.1) with
      | none => none
      | some fs =>
        let ap := add_prefix fp.1
        let iu := match el.2 with
          | some src => src
          | none => ""
        let ip := if iu = "" then "" else dl iu ap.2.2
        some ⟨ap.2.1, fp.1, fs.1, fs.2, fp.2, "", "", iu, ip⟩

/-- `KasikornSeleniumScraper.scrape_executives` of `src/Kbank/KBank.py`
(lines 335-663), from the point where the page HTML has been fetched. -/
def scrape_executives2 (limit : Nat) (primary secondary : List Container)
    (drv : Bool) (dl : String → String → String) (findImgs : String → List String)
    (fallbackEls : List (String × Option String)) : List Exec2 :=
  let tables := if primary.isEmpty then secondary else primary
  let p := containers2Go dl limit tables 0
  let execs := if ¬p.1.isEmpty ∧ drv = true then
      p.1.map (backfill2 dl findImgs)
    else p.1
  if execs.isEmpty ∧ drv = true then
    (collectLimit (fallbackRec2 dl) limit (fallbackEls.take limit) 0).1
  else execs

/-- A replacement with a nonempty source is nonempty. -/
lemma charReplace_ne (a b : Char) (s : String) (h : s ≠ "") :
    charReplace a b s ≠ "" := by
  intro he
  apply h
  have h2 : (s.data.map (fun c => if c = a then b else c)) = [] := congrArg String.data he
  have h3 : s.data = [] := List.map_eq_nil_iff.mp h2
  obtain ⟨l⟩ := s
  cases h3
  rfl

/-- When the image search finds nothing, the backfill pass leaves a record
unchanged. -/
lemma backfill2_id (dl : String → String → String) (fi : String → List String)
    (e : Exec2) (hfi : ∀ q, fi q = []) (hname : e.Full_Name ≠ "") :
    backfill2 dl fi e = e := by
  rw [backfill2]
  split
  · rw [if_neg (charReplace_ne ' ' '+' e.Full_Name hname), hfi]
  · rfl

/-- C6: table extraction adapts to the column count.  A header-less table of
two rows with four columns each yields exactly two records whose start and
end dates come from columns 3 and 4 via date normalization; with three
columns only the start date; with two columns both dates are empty strings —
in both source variants.  (The hypotheses state that the names are nonempty
and parseable, as for any emitted record.) -/
theorem C6_table_column_adaptation
    (n1 p1 a1 b1 n2 p2 a2 b2 f1 s1 f2 s2 g1 t1 g2 t2 : String)
    (sec : List Container) (drv : Bool) (fb : List String)
    (fbe : List (String × Option String))
    (dl : String → String → String) (fi : String → List String)
    (hn1 : n1 ≠ "") (hn2 : n2 ≠ "")
    (hp1 : parse_name1 (some n1) = some (f1, s1))
    (hp2 : parse_name1 (some n2) = some (f2, s2))
    (hq1 : parse_name2 (some n1) = some (g1, t1))
    (hq2 : parse_name2 (some n2) = some (g2, t2))
    (hfi : ∀ q, fi q = []) :
    scrape_executives1 100
        [Container.table [⟨false, [n1, p1, a1, b1], none⟩,
                          ⟨false, [n2, p2, a2, b2], none⟩]] sec drv fb =
      [⟨ extract_prefix n1, n1, f1, s1, p1, extract_date1 a1, extract_date1 b1⟩,
       ⟨ extract_prefix n2, n2, f2, s2, p2, extract_date1 a2, extract_date1 b2⟩]
  ∧ scrape_executives1 100
        [Container.table [⟨false, [n1, p1, a1], none⟩,
                          ⟨false, [n2, p2, a2], none⟩]] sec drv fb =
      [⟨ extract_prefix n1, n1, f1, s1, p1, extract_date1 a1, ""⟩,
       ⟨ extract_prefix n2, n2, f2, s2, p2, extract_date1 a2, ""⟩]
  ∧ scrape_executives1 100
        [Container.table [⟨false, [n1, p1], none⟩,
                          ⟨false, [n2, p2], none⟩]] sec drv fb =
      [⟨ extract_prefix n1, n1, f1, s1, p1, "", ""⟩,
       ⟨ extract_prefix n2, n2, f2, s2, p2, "", ""⟩]
  ∧ scrape_executives2 100
        [Container.table [⟨false, [n1, p1, a1, b1], none⟩,
                          ⟨false, [n2, p2, a2, b2], none⟩]] sec drv dl fi fbe =
      [⟨( add_prefix n1).2.1, n1, g1, t1, p1, extract_date2 a1, extract_date2 b1, "", ""⟩,
       ⟨( add_prefix n2).2.1, n2, g2, t2, p2, extract_date2 a2, extract_date2 b2, "", ""⟩]
  ∧ scrape_executives2 100
        [Container.table [⟨false, [n1, p1], none⟩,
                          ⟨false, [n2, p2], none⟩]] sec drv dl fi fbe =
      [⟨( add_prefix n1).2.1, n1, g1, t1, p1, "", "", "", ""⟩,
       ⟨( add_prefix n2).2.1, n2, g2, t2, p2, "", "", "", ""⟩] := by
  have hb1 : ∀ e : Exec2, e.Full_Name = n1 → backfill2 dl fi e = e := fun e he =>
    backfill2_id dl fi e hfi (by rw [he]; exact hn1)
  refine ⟨?_, ?_, ?_, ?_, ?_⟩
  · simp [scrape_executives1, containers1Go, collectLimit, row1Rec, hn1, hn2, hp1, hp2]
  · simp [scrape_executives1, containers1Go, collectLimit, row1Rec, hn1, hn2, hp1, hp2]
  · simp [scrape_executives1, containers1Go, collectLimit, row1Rec, hn1, hn2, hp1, hp2]
  · simp [scrape_executives2, containers2Go, collectLimit, row2Rec, hn1, hn2, hq1, hq2,
      backfill2_id, hfi, charReplace_ne]
  · simp [scrape_executives2, containers2Go, collectLimit, row2Rec, hn1, hn2, hq1, hq2,
      backfill2_id, hfi, charReplace_ne]

/-- Instantiation of `C6_table_column_adaptation`: two 4-column rows with
parseable Thai/numeric dates produce two records with both dates populated. -/
theorem C6_table_column_adaptation_witness :
    scrape_executives1 100
        [Container.table
          [⟨false, ["นายสมชาย ใจดี", "ประธาน", "1 เมษายน 2564", "31/12/2565"], none⟩,
           ⟨false, ["นางสาวขวัญ ดี", "กรรมการ", "2564-04-01", "9/9/2540"], none⟩]]
        [] true [] =
      [⟨ extract_prefix "นายสมชาย ใจดี", "นายสมชาย ใจดี", "สมชาย", "ใจดี", "ประธาน",
         extract_date1 "1 เมษายน 2564", extract_date1 "31/12/2565"⟩,
       ⟨ extract_prefix "นางสาวขวัญ ดี", "นางสาวขวัญ ดี", "ขวัญ", "ดี", "กรรมการ",
         extract_date1 "2564-04-01", extract_date1 "9/9/2540"⟩]
  ∧ extract_date1 "1 เมษายน 2564" = "01-04-2021"
  ∧ extract_date1 "31/12/2565" = "31-12-2022"
  ∧ extract_date1 "2564-04-01" = "01-04-2021"
  ∧ extract_date1 "9/9/2540" = "09-09-1997" := by
  refine ⟨(C6_table_column_adaptation "นายสมชาย ใจดี" "ประธาน" "1 เมษายน 2564"
      "31/12/2565" "นางสาวขวัญ ดี" "กรรมการ" "2564-04-01" "9/9/2540"
      "สมชาย" "ใจดี" "ขวัญ" "ดี" "สมชาย" "ใจดี" "สาวขวัญ" "ดี"
      [] true [] [] (fun _ _ => "") (fun _ => [])
      (by decide) (by decide) (by decide) (by decide) (by decide) (by decide)
      (fun _ => rfl)).1, by decide, by decide, by decide, by decide⟩

/-! ### C8: every emitted record has a nonempty primary field (KBank) -/

lemma collectLimit_mem {α β : Type} (f : α → Option β) (limit : Nat) :
    ∀ (l : List α) (cnt : Nat) (b : β), b ∈ (collectLimit f limit l cnt).1 →
      ∃ a, f a = some b := by
  intro l
  induction l with
  | nil => intro cnt b hb; simp [collectLimit] at hb
  | cons x xs ih =>
    intro cnt b hb
    cases hfx : f x with
    | none =>
      rw [collectLimit, hfx] at hb
      exact ih cnt b hb
    | some rec =>
      rw [collectLimit, hfx] at hb
      have hb3 : b ∈ (if limit ≤ cnt + 1 then (([rec], cnt + 1) : List β × Nat)
          else ((rec :: (collectLimit f limit xs (cnt + 1)).1,
                 (collectLimit f limit xs (cnt + 1)).2) : List β × Nat)).1 := hb
      by_cases hl : limit ≤ cnt + 1
      · rw [if_pos hl] at hb3
        have hbr := List.mem_singleton.mp hb3
        exact ⟨x, by rw [hfx, hbr]⟩
      · rw [if_neg hl] at hb3
        rcases List.mem_cons.mp hb3 with rfl | hb4
        · exact ⟨x, hfx⟩
        · exact ih (cnt + 1) b hb4

lemma row1Rec_name (r : Row) (e : Exec1) (h : row1Rec r = some e) :
    e.Full_Name ≠ "" := by
  obtain ⟨th, tds, img⟩ := r
  cases th with
  | true => simp [row1Rec] at h
  | false =>
    rcases tds with _ | ⟨c0, _ | ⟨c1, rest⟩⟩
    · simp [row1Rec] at h
    · simp [row1Rec] at h
    · by_cases hc0 : c0 = ""
      · simp [row1Rec, hc0] at h
      · cases hp : parse_name1 (some c0) with
        | none => simp [row1Rec, hc0, hp] at h
        | some fs =>
          rcases rest with _ | ⟨d1, _ | ⟨d2, rest2⟩⟩ <;>
            (simp [row1Rec, hc0, hp] at h; subst h; exact hc0)

lemma item1Rec_name (it : Item) (e : Exec1) (h : item1Rec it = some e) :
    e.Full_Name ≠ "" := by
  by_cases hc0 : (it.name?).getD "" = ""
  · simp [item1Rec, hc0] at h
  · cases hp : parse_name1 (some ((it.name?).getD "")) with
    | none => simp [item1Rec, hc0, hp] at h
    | some fs =>
      simp [item1Rec, hc0, hp] at h
      subst h
      exact hc0

lemma fallbackRec1_name (txt : String) (e : Exec1) (h : fallbackRec1 txt = some e) :
    e.Full_Name ≠ "" := by
  cases hp : parse_name1 (some (fallbackSplit (pyStrip txt)).1) with
  | none => simp [fallbackRec1, hp] at h
  | some fs =>
    simp [fallbackRec1, hp] at h
    obtain ⟨h1, h2, h3⟩ := h
    subst h3
    intro he
    have he2 : (fallbackSplit (pyStrip txt)).1 = "" := he
    apply h2.2
    rw [he2]
    decide

lemma containers1Go_name (limit : Nat) :
    ∀ (cs : List Container) (cnt : Nat) (e : Exec1),
      e ∈ (containers1Go limit cs cnt).1 → e.Full_Name ≠ "" := by
  intro cs
  induction cs with
  | nil => intro cnt e he; simp [containers1Go] at he
  | cons c cs2 ih =>
    intro cnt e he
    have hstep : ∀ (p : List Exec1 × Nat), (∀ b ∈ p.1, b.Full_Name ≠ "") →
        e ∈ (if limit ≤ p.2 then p
             else ((p.1 ++ (containers1Go limit cs2 p.2).1,
                    (containers1Go limit cs2 p.2).2) : List Exec1 × Nat)).1 →
        e.Full_Name ≠ "" := by
      intro p hp hin
      by_cases hl : limit ≤ p.2
      · rw [if_pos hl] at hin
        exact hp e hin
      · rw [if_neg hl] at hin
        rcases List.mem_append.mp hin with hx | hx
        · exact hp e hx
        · exact ih p.2 e hx
    cases c with
    | table rows =>
      refine hstep (collectLimit row1Rec limit rows cnt) ?_ he
      intro b hb
      obtain ⟨a, ha⟩ := collectLimit_mem row1Rec limit rows cnt b hb
      exact row1Rec_name a b ha
    | divBlock items altItems =>
      refine hstep (collectLimit item1Rec limit
          (if items.isEmpty then altItems else items) cnt) ?_ he
      intro b hb
      obtain ⟨a, ha⟩ := collectLimit_mem item1Rec limit
          (if items.isEmpty then altItems else items) cnt b hb
      exact item1Rec_name a b ha

lemma row2Rec_name (dl : String → String → String) (r : Row) (e : Exec2)
    (h : row2Rec dl r = some e) : e.Full_Name ≠ "" := by
  obtain ⟨th, tds, img⟩ := r
  cases th with
  | true => simp [row2Rec] at h
  | false =>
    rcases tds with _ | ⟨c0, _ | ⟨c1, rest⟩⟩
    · simp [row2Rec] at h
    · simp [row2Rec] at h
    · by_cases hc0 : c0 = ""
      · simp [row2Rec, hc0] at h
      · cases hp : parse_name2 (some c0) with
        | none => simp [row2Rec, hc0, hp] at h
        | some fs =>
          rcases rest with _ | ⟨d1, _ | ⟨d2, rest2⟩⟩ <;>
            (simp [row2Rec, hc0, hp] at h; subst h; exact hc0)

lemma item2Rec_name (dl : String → String → String) (it : Item) (e : Exec2)
    (h : item2Rec dl it = some e) : e.Full_Name ≠ "" := by
  by_cases hc0 : (it.name?).getD "" = ""
  · simp [item2Rec, hc0] at h
  · cases hp : parse_name2 (some ((it.name?).getD "")) with
    | none => simp [item2Rec, hc0, hp] at h
    | some fs =>
      simp [item2Rec, hc0, hp] at h
      subst h
      exact hc0

lemma fallbackRec2_name (dl : String → String → String) (el : String × Option String)
    (e : Exec2) (h : fallbackRec2 dl el = some e) : e.Full_Name ≠ "" := by
  cases hp : parse_name2 (some (fallbackSplit (pyStrip el.1)).1) with
  | none => simp [fallbackRec2, hp] at h
  | some fs =>
    simp [fallbackRec2, hp] at h
    obtain ⟨h1, h2, h3⟩ := h
    subst h3
    intro he
    have he2 : (fallbackSplit (pyStrip el.1)).1 = "" := he
    apply h2.2
    rw [he2]
    decide

lemma backfill2_name (dl : String → String → String) (fi : String → List String)
    (e : Exec2) : (backfill2 dl fi e).Full_Name = e.Full_Name := by
  rw [backfill2]
  split
  · split
    · rfl
    · split
      · rfl
      · split
        · rfl
        · rfl
  · rfl

lemma containers2Go_name (dl : String → String → String) (limit : Nat) :
    ∀ (cs : List Container) (cnt : Nat) (e : Exec2),
      e ∈ (containers2Go dl limit cs cnt).1 → e.Full_Name ≠ "" := by
  intro cs
  induction cs with
  | nil => intro cnt e he; simp [containers2Go] at he
  | cons c cs2 ih =>
    intro cnt e he
    have hstep : ∀ (p : List Exec2 × Nat), (∀ b ∈ p.1, b.Full_Name ≠ "") →
        e ∈ (if limit ≤ p.2 then p
             else ((p.1 ++ (containers2Go dl limit cs2 p.2).1,
                    (containers2Go dl limit cs2 p.2).2) : List Exec2 × Nat)).1 →
        e.Full_Name ≠ "" := by
      intro p hp hin
      by_cases hl : limit ≤ p.2
      · rw [if_pos hl] at hin
        exact hp e hin
      · rw [if_neg hl] at hin
        rcases List.mem_append.mp hin with hx | hx
        · exact hp e hx
        · exact ih p.2 e hx
    cases c with
    | table rows =>
      refine hstep (collectLimit (row2Rec dl) limit rows cnt) ?_ he
      intro b hb
      obtain ⟨a, ha⟩ := collectLimit_mem (row2Rec dl) limit rows cnt b hb
      exact row2Rec_name dl a b ha
    | divBlock items altItems =>
      refine hstep (collectLimit (item2Rec dl) limit
          (if items.isEmpty then altItems else items) cnt) ?_ he
      intro b hb
      obtain ⟨a, ha⟩ := collectLimit_mem (item2Rec dl) limit
          (if items.isEmpty then altItems else items) cnt b hb
      exact item2Rec_name dl a b ha

/-- The records produced by the container pass of variant 1, before the
fallback decision. -/
def execsPre1 (limit : Nat) (primary secondary : List Container) : List Exec1 :=
  (containers1Go limit (if primary.isEmpty then secondary else primary) 0).1

lemma scrape_executives1_eq (limit : Nat) (primary secondary : List Container)
    (drv : Bool) (fb : List String) :
    scrape_executives1 limit primary secondary drv fb =
      if (execsPre1 limit primary secondary).isEmpty ∧ drv = true then
        (collectLimit fallbackRec1 limit (fb.take limit) 0).1
      else execsPre1 limit primary secondary := rfl

/-- The records produced by the container pass of variant 2 (with the image
backfill applied when a driver exists), before the fallback decision. -/
def execsPre2 (dl : String → String → String) (fi : String → List String)
    (limit : Nat) (primary secondary : List Container) (drv : Bool) : List Exec2 :=
  let p1 := (containers2Go dl limit (if primary.isEmpty then secondary else primary) 0).1
  if ¬p1.isEmpty ∧ drv = true then p1.map (backfill2 dl fi) else p1

lemma scrape_executives2_eq (limit : Nat) (primary secondary : List Container)
    (drv : Bool) (dl : String → String → String) (fi : String → List String)
    (fbe : List (String × Option String)) :
    scrape_executives2 limit primary secondary drv dl fi fbe =
      if (execsPre2 dl fi limit primary secondary drv).isEmpty ∧ drv = true then
        (collectLimit (fallbackRec2 dl) limit (fbe.take limit) 0).1
      else execsPre2 dl fi limit primary secondary drv := rfl

/-- C8 (amended): every record emitted by `scrape_executives` — through the
table branch, the div branch, or the Selenium fallback, in either source
variant — has a nonempty `Full_Name`: a container whose extracted name is
empty is discarded, and so is a fallback element whose name guess has no
tokens.  (The headline half of the original claim fails for `parse_page`,
see `C8_empty_headline_counterexample`.) -/
theorem C8_kbank_nonempty_name (limit : Nat) (primary secondary : List Container)
    (drv : Bool) (fb : List String) (fbe : List (String × Option String))
    (dl : String → String → String) (fi : String → List String) :
    (∀ e ∈ scrape_executives1 limit primary secondary drv fb, e.Full_Name ≠ "")
  ∧ (∀ e ∈ scrape_executives2 limit primary secondary drv dl fi fbe,
      e.Full_Name ≠ "") := by
  constructor
  · intro e he
    rw [scrape_executives1_eq] at he
    by_cases hc : (execsPre1 limit primary secondary).isEmpty ∧ drv = true
    · rw [if_pos hc] at he
      obtain ⟨a, ha⟩ := collectLimit_mem fallbackRec1 limit (fb.take limit) 0 e he
      exact fallbackRec1_name a e ha
    · rw [if_neg hc] at he
      exact containers1Go_name limit
        (if primary.isEmpty then secondary else primary) 0 e he
  · intro e he
    rw [scrape_executives2_eq] at he
    by_cases hc : (execsPre2 dl fi limit primary secondary drv).isEmpty ∧ drv = true
    · rw [if_pos hc] at he
      obtain ⟨a, ha⟩ := collectLimit_mem (fallbackRec2 dl) limit (fbe.take limit) 0 e he
      exact fallbackRec2_name dl a e ha
    · rw [if_neg hc] at he
      by_cases hm : ¬(containers2Go dl limit
            (if primary.isEmpty then secondary else primary) 0).1.isEmpty ∧ drv = true
      · have he3 : e ∈ (if ¬(containers2Go dl limit
              (if primary.isEmpty then secondary else primary) 0).1.isEmpty ∧ drv = true
            then (containers2Go dl limit
              (if primary.isEmpty then secondary else primary) 0).1.map (backfill2 dl fi)
            else (containers2Go dl limit
              (if primary.isEmpty then secondary else primary) 0).1) := he
        rw [if_pos hm] at he3
        obtain ⟨e0, he0, heq⟩ := List.mem_map.mp he3
        rw [← heq, backfill2_name]
        exact containers2Go_name dl limit
          (if primary.isEmpty then secondary else primary) 0 e0 he0
      · have he3 : e ∈ (if ¬(containers2Go dl limit
              (if primary.isEmpty then secondary else primary) 0).1.isEmpty ∧ drv = true
            then (containers2Go dl limit
              (if primary.isEmpty then secondary else primary) 0).1.map (backfill2 dl fi)
            else (containers2Go dl limit
              (if primary.isEmpty then secondary else primary) 0).1) := he
        rw [if_neg hm] at he3
        exact containers2Go_name dl limit
          (if primary.isEmpty then secondary else primary) 0 e he3

/-- Instantiation of `C8_kbank_nonempty_name` at a concrete one-row table and
its emitted record. -/
theorem C8_kbank_nonempty_name_witness :
    (Exec1.mk ( extract_prefix "นายสมชาย ใจดี") "นายสมชาย ใจดี" "สมชาย" "ใจดี"
      "ประธาน" "" "").Full_Name ≠ "" :=
  (C8_kbank_nonempty_name 100
    [Container.table [⟨false, ["นายสมชาย ใจดี", "ประธาน"], none⟩]] [] true []
    [] (fun _ _ => "") (fun _ => [])).1 _ (by decide)

/-! ### C3: strategy-level selection order -/

/-- C3 (amended): strategy selection is first-match-wins only in the two
`scrape_executives` variants, whose container query is two-tier — whenever the
primary selector set locates at least one container, the secondary query
contributes nothing (the output does not depend on it).  `parse_page` of
`src/main.py` is **not** first-match-wins: it accumulates the records of every
selector in `article_selectors`, so a container matched by several selectors
is emitted several times (see `C3_first_match_wins_counterexample`). -/
theorem C3_strategy_order (limit : Nat) (primary secondary secondary2 : List Container)
    (drv : Bool) (fb : List String) (fbe : List (String × Option String))
    (dl : String → String → String) (fi : String → List String)
    (fc : String → String) (xd : TElem → String) (ns base : String) (soup : SoupM)
    (hne : primary ≠ []) :
    scrape_executives1 limit primary secondary drv fb =
      scrape_executives1 limit primary secondary2 drv fb
  ∧ scrape_executives2 limit primary secondary drv dl fi fbe =
      scrape_executives2 limit primary secondary2 drv dl fi fbe
  ∧ parse_page fc xd ns base soup =
      (article_selectors.map (parsePerSelector fc xd ns base soup)).flatten := by
  have hpe : primary.isEmpty = false := by
    cases primary with
    | nil => exact absurd rfl hne
    | cons a l => rfl
  refine ⟨?_, ?_, rfl⟩
  · simp [scrape_executives1, hpe]
  · simp [scrape_executives2, hpe]

/-- Instantiation of `C3_strategy_order`: with a nonempty primary container
list, swapping the secondary list for the empty one changes nothing. -/
theorem C3_strategy_order_witness :
    scrape_executives1 2 [Container.table []]
      [Container.table [⟨false, ["นาย ก", "ป"], none⟩]] false [] =
      scrape_executives1 2 [Container.table []] [] false [] :=
  (C3_strategy_order 2 [Container.table []]
    [Container.table [⟨false, ["นาย ก", "ป"], none⟩]] [] false [] []
    (fun _ _ => "") (fun _ => []) (fun _ => "") (fun _ => "") "" ""
    ⟨fun _ => []⟩ (List.cons_ne_nil _ _)).1

/-! ### C7: retry counts and backoff delays

`WebScraper.fetch_html` (`src/main.py` lines 100-144) and
`KasikornSeleniumScraper.fetch_page` (`src/KBank.py` lines 78-134).  The
network is an opaque function from the attempt index to the attempt's outcome
(`none` = `RequestException` / `WebDriverException`); `time.sleep` calls made
by the backoff logic are recorded in the trace (the fixed per-attempt
rate-limiting sleeps are not part of the claim); `random.uniform(1, 5)` is an
opaque jitter function of the attempt index. -/

structure FetchTrace where
  result : Option String
  attempts : Nat
  backoffs : List ℚ

/-- The `for attempt in range(retries)` loop of `fetch_html`: on success
return the text; on `RequestException` return `None` when this was the last
attempt, else sleep `delay * (attempt + 1)` and continue. -/
def fetchLoop1 (att : Nat → Option String) (retries : Nat) (delay : ℚ) :
    List Nat → FetchTrace
  | [] => ⟨none, 0, []⟩
  | attempt :: rest =>
    match att attempt with
    | some txt => ⟨some txt, 1, []⟩
    | none =>
      if attempt = retries - 1 then ⟨none, 1, []⟩
      else
        let t := fetchLoop1 att retries delay rest
        ⟨t.result, t.attempts + 1, delay * ((attempt : ℚ) + 1) :: t.backoffs⟩

/-- `WebScraper.fetch_html`: the URL is sanitized first and a falsy result
aborts with `None` before any attempt. -/
def fetch_html (base url : String) (att : Nat → Option String) (retries : Nat)
    (delay : ℚ) : FetchTrace :=
  match clean_url base url with
  | none => ⟨none, 0, []⟩
  | some u => if u = "" then ⟨none, 0, []⟩ else fetchLoop1 att retries delay (List.range retries)

/-- The `for attempt in range(retries)` loop of `fetch_page`: an attempt
succeeds only when the page source exceeds 500 characters; after any failed
attempt except the last, sleep `5 * (attempt + 1) + uniform(1, 5)`. -/
def fetchLoop2 (att : Nat → Option String) (retries : Nat) (jit : Nat → ℚ) :
    List Nat → FetchTrace
  | [] => ⟨none, 0, []⟩
  | attempt :: rest =>
    let ok : Option String :=
      match att attempt with
      | some s => if 500 < s.data.length then some s else none
      | none => none
    match ok with
    | some s => ⟨some s, 1, []⟩
    | none =>
      if attempt < retries - 1 then
        let t := fetchLoop2 att retries jit rest
        ⟨t.result, t.attempts + 1, (5 * ((attempt : ℚ) + 1) + jit attempt) :: t.backoffs⟩
      else
        let t := fetchLoop2 att retries jit rest
        ⟨t.result, t.attempts + 1, t.backoffs⟩

/-- `KasikornSeleniumScraper.fetch_page`: aborts with `None` when no driver
can be set up. -/
def fetch_page (drvOk : Bool) (att : Nat → Option String) (retries : Nat)
    (jit : Nat → ℚ) : FetchTrace :=
  if drvOk then fetchLoop2 att retries jit (List.range retries) else ⟨none, 0, []⟩

/-- C7: with `retries = 3` and every attempt failing with a transport error,
both fetchers perform exactly 3 attempts, sleep exactly twice between them
with the second backoff strictly longer than the first
(`delay * attempt_number` for `fetch_html` with a positive delay;
`5 * attempt_number + uniform(1, 5)` for `fetch_page`), and then return
`None` instead of raising. -/
theorem C7_retry_backoff (att1 att2 : Nat → Option String) (delay : ℚ)
    (jit : Nat → ℚ) (base url u : String)
    (hurl : clean_url base url = some u) (hu : u ≠ "")
    (h1 : ∀ i, att1 i = none) (hd : 0 < delay)
    (h2 : ∀ i, att2 i = none) (hj : ∀ i, 1 ≤ jit i ∧ jit i ≤ 5) :
    (fetch_html base url att1 3 delay).result = none
  ∧ (fetch_html base url att1 3 delay).attempts = 3
  ∧ (fetch_html base url att1 3 delay).backoffs = [delay * 1, delay * 2]
  ∧ delay * 1 < delay * 2
  ∧ (fetch_page true att2 3 jit).result = none
  ∧ (fetch_page true att2 3 jit).attempts = 3
  ∧ (fetch_page true att2 3 jit).backoffs = [5 * 1 + jit 0, 5 * 2 + jit 1]
  ∧ 5 * 1 + jit 0 < 5 * 2 + jit 1 := by
  have hr : List.range 3 = [0, 1, 2] := rfl
  have hfh : fetch_html base url att1 3 delay =
      ⟨none, 3, [delay * 1, delay * 2]⟩ := by
    simp [fetch_html, hurl, hu, hr, fetchLoop1, h1]
    norm_num
  have hfp : fetch_page true att2 3 jit =
      ⟨none, 3, [5 * 1 + jit 0, 5 * 2 + jit 1]⟩ := by
    simp [fetch_page, hr, fetchLoop2, h2]
    norm_num
  have hlt1 : delay * 1 < delay * 2 := by linarith
  have hlt2 : 5 * 1 + jit 0 < 5 * 2 + jit 1 := by
    have ha := (hj 0).2
    have hb := (hj 1).1
    linarith
  exact ⟨by rw [hfh], by rw [hfh], by rw [hfh], hlt1,
    by rw [hfp], by rw [hfp], by rw [hfp], hlt2⟩

/-- Instantiation of `C7_retry_backoff` at an accepted URL, an
always-failing transport, `delay = 1` and constant jitter `2`. -/
theorem C7_retry_backoff_witness :
    (fetch_html "https://www.innwhy.com/pr-news/" "https://www.innwhy.com/x"
        (fun _ => none) 3 1).result = none
  ∧ (fetch_html "https://www.innwhy.com/pr-news/" "https://www.innwhy.com/x"
        (fun _ => none) 3 1).attempts = 3
  ∧ (fetch_html "https://www.innwhy.com/pr-news/" "https://www.innwhy.com/x"
        (fun _ => none) 3 1).backoffs = [(1 : ℚ) * 1, 1 * 2]
  ∧ (1 : ℚ) * 1 < 1 * 2
  ∧ (fetch_page true (fun _ => none) 3 (fun _ => 2)).result = none
  ∧ (fetch_page true (fun _ => none) 3 (fun _ => 2)).attempts = 3
  ∧ (fetch_page true (fun _ => none) 3 (fun _ => 2)).backoffs =
      [5 * 1 + 2, 5 * 2 + 2]
  ∧ (5 : ℚ) * 1 + 2 < 5 * 2 + 2 :=
  C7_retry_backoff (fun _ => none) (fun _ => none) 1 (fun _ => 2)
    "https://www.innwhy.com/pr-news/" "https://www.innwhy.com/x"
    "https://www.innwhy.com/x" (by decide) (by decide)
    (fun _ => rfl) (by norm_num) (fun _ => rfl)
    (fun _ => ⟨by norm_num, by norm_num⟩)

end MTL

